import Mathlib

/-!
# PCIe configuration-space accessor and test sequencer (`val/src/avs_pcie.c`)

A shallow embedding of `val_pcie_get_info`, `val_pcie_read_cfg`,
`val_pcie_write_cfg`, `val_pcie_execute_tests` and `val_pcie_free_info_table`.

* C unsigned integers are natural numbers; a reduction `% 2 ^ w` is written
  wherever a C operation is carried out at width `w`.
* The globals (`g_pcie_info_table`, `g_skip_test_num`) and the state of the
  platform behind the PAL live in an explicit `State` that every function
  threads through.
* Every call that leaves the file (`val_print`, `pal_mmio_read`,
  `pal_mmio_write`, `pal_pcie_get_mcfg_ecam`, `p001_entry`, `p002_entry`,
  `p003_entry`, `pal_mem_free`) appends one `Event` to `State.trace`, in call
  order.
* The region scan of the accessors is a `while` loop; it is embedded with a
  fuel argument that bounds the number of loop bodies run, and `none` means the
  fuel ran out.
-/

namespace AvsPcie

/-! ## Header material -/

/-- Modelled from the spec: `PCIE_MAX_BUS` is defined in a header that is not in
the source tree; the spec gives "Bus < 256". -/
def PCIE_MAX_BUS : Nat := 256

/-- Modelled from the spec: `PCIE_MAX_DEV` is defined in a header that is not in
the source tree; the spec gives "Device < 32" and "32 devices/bus". -/
def PCIE_MAX_DEV : Nat := 32

/-- Modelled from the spec: `PCIE_MAX_FUNC` is defined in a header that is not in
the source tree; the spec gives "Function < 8" and "8 functions/device". -/
def PCIE_MAX_FUNC : Nat := 8

/-- Modelled from the spec: `AVS_STATUS_PASS` is defined in a header that is not
in the source tree; the spec gives "PASS is the identity/zero value" of the
bitwise OR over status codes. -/
def AVS_STATUS_PASS : Nat := 0

/-- The remaining macros of the headers `sbsa_avs_val.h`, `sbsa_avs_common.h`
and `sbsa_avs_pcie.h`, none of which is in the source tree. They are parameters
of the embedding. -/
structure Includes where
  /-- The macro `PCIE_EXTRACT_BDF_BUS(bdf)`. -/
  PCIE_EXTRACT_BDF_BUS : Nat → Nat
  /-- The macro `PCIE_EXTRACT_BDF_DEV(bdf)`. -/
  PCIE_EXTRACT_BDF_DEV : Nat → Nat
  /-- The macro `PCIE_EXTRACT_BDF_FUNC(bdf)`. -/
  PCIE_EXTRACT_BDF_FUNC : Nat → Nat
  /-- The status code `AVS_STATUS_SKIP`. -/
  AVS_STATUS_SKIP : Nat
  /-- The test-group identifier `AVS_PCIE_TEST_NUM_BASE`. -/
  AVS_PCIE_TEST_NUM_BASE : Nat
  /-- The capacity `MAX_TEST_SKIP_NUM` of `g_skip_test_num`. -/
  MAX_TEST_SKIP_NUM : Nat

/-- The selector type `PCIE_INFO_e`. The six enumerators are the ones
`val_pcie_get_info` switches on; `other v` is any other value `v` of the C
enumeration type, which reaches the `default` label. -/
inductive PCIE_INFO_e where
  | PCIE_INFO_NUM_ECAM
  | PCIE_INFO_MCFG_ECAM
  | PCIE_INFO_ECAM
  | PCIE_INFO_START_BUS
  | PCIE_INFO_END_BUS
  | PCIE_INFO_SEGMENT
  | other (v : Nat)
  deriving DecidableEq, Repr

/-- One ECAM region descriptor, `PCIE_INFO_BLOCK`, with the four fields
`val_pcie_get_info` reads. -/
structure PCIE_INFO_BLOCK where
  ecam_base : Nat
  segment_num : Nat
  start_bus_num : Nat
  end_bus_num : Nat
  deriving DecidableEq, Repr

/-- The table `PCIE_INFO_TABLE`: the count `num_entries` and the array `block`
that follows it in memory, indexed from 0. -/
structure PCIE_INFO_TABLE where
  num_entries : Nat
  block : Nat → PCIE_INFO_BLOCK

/-- The table is a well-typed C object: the count fits the 32-bit loop counter
it is compared with, and the fields of the `num_entries` descriptors fit the
64-bit value `val_pcie_get_info` returns (32 bits for the bus and segment
numbers). -/
def PCIE_INFO_TABLE.wf (t : PCIE_INFO_TABLE) : Prop :=
  t.num_entries < 2 ^ 32 ∧
  ∀ i, i < t.num_entries →
    (t.block i).ecam_base < 2 ^ 64 ∧ (t.block i).segment_num < 2 ^ 32 ∧
    (t.block i).start_bus_num < 2 ^ 32 ∧ (t.block i).end_bus_num < 2 ^ 32

/-! ## State, events and the external collaborators -/

/-- The severity argument of `val_print`. -/
inductive PrintLevel where
  | AVS_PRINT_ERR
  | AVS_PRINT_WARN
  | AVS_PRINT_INFO
  | AVS_PRINT_TEST
  deriving DecidableEq, Repr

/-- A call from this file to a function defined outside it. -/
inductive Event where
  | val_print (level : PrintLevel) (msg : String) (data : Nat)
  | pal_mmio_read (addr : Nat)
  | pal_mmio_write (addr : Nat) (data : Nat)
  | pal_pcie_get_mcfg_ecam
  | p001_entry (num_pe : Nat)
  | p002_entry (num_pe : Nat)
  | p003_entry (num_pe : Nat)
  | pal_mem_free
  deriving DecidableEq, Repr

/-- The external functions, as transformers of a platform state `σ`: the MMIO
primitive, the MCFG accessor and the three test entry points. Each returns the
raw value the platform produces. -/
structure Pal (σ : Type) where
  mmio_read : Nat → σ → Nat × σ
  mmio_write : Nat → Nat → σ → σ
  get_mcfg_ecam : σ → Nat × σ
  p001 : Nat → σ → Nat × σ
  p002 : Nat → σ → Nat × σ
  p003 : Nat → σ → Nat × σ

/-- The program state: the global pointer `g_pcie_info_table` (`none` is `NULL`,
`some t` is a pointer to a table with contents `t`), the global array
`g_skip_test_num`, the platform state and the calls made so far. -/
structure State (σ : Type) where
  g_pcie_info_table : Option PCIE_INFO_TABLE
  g_skip_test_num : Nat → Nat
  pal : σ
  trace : List Event

variable {σ : Type}

/-- The call `val_print(level, msg, data)`. -/
def val_print (level : PrintLevel) (msg : String) (data : Nat) (s : State σ) : State σ :=
  { s with trace := s.trace ++ [Event.val_print level msg data] }

/-- The call `pal_mmio_read(addr)`; its result is a `uint32_t`. -/
def pal_mmio_read (P : Pal σ) (addr : Nat) (s : State σ) : Nat × State σ :=
  ((P.mmio_read addr s.pal).1 % 2 ^ 32,
   { s with pal := (P.mmio_read addr s.pal).2,
            trace := s.trace ++ [Event.pal_mmio_read addr] })

/-- The call `pal_mmio_write(addr, data)`. -/
def pal_mmio_write (P : Pal σ) (addr data : Nat) (s : State σ) : State σ :=
  { s with pal := P.mmio_write addr data s.pal,
           trace := s.trace ++ [Event.pal_mmio_write addr data] }

/-- The call `pal_pcie_get_mcfg_ecam()`; its result is a `uint64_t`. -/
def pal_pcie_get_mcfg_ecam (P : Pal σ) (s : State σ) : Nat × State σ :=
  ((P.get_mcfg_ecam s.pal).1 % 2 ^ 64,
   { s with pal := (P.get_mcfg_ecam s.pal).2,
            trace := s.trace ++ [Event.pal_pcie_get_mcfg_ecam] })

/-- The call `p001_entry(num_pe)`; its result is a `uint32_t`. -/
def p001_entry (P : Pal σ) (num_pe : Nat) (s : State σ) : Nat × State σ :=
  ((P.p001 num_pe s.pal).1 % 2 ^ 32,
   { s with pal := (P.p001 num_pe s.pal).2,
            trace := s.trace ++ [Event.p001_entry num_pe] })

/-- The call `p002_entry(num_pe)`; its result is a `uint32_t`. -/
def p002_entry (P : Pal σ) (num_pe : Nat) (s : State σ) : Nat × State σ :=
  ((P.p002 num_pe s.pal).1 % 2 ^ 32,
   { s with pal := (P.p002 num_pe s.pal).2,
            trace := s.trace ++ [Event.p002_entry num_pe] })

/-- The call `p003_entry(num_pe)`; its result is a `uint32_t`. -/
def p003_entry (P : Pal σ) (num_pe : Nat) (s : State σ) : Nat × State σ :=
  ((P.p003 num_pe s.pal).1 % 2 ^ 32,
   { s with pal := (P.p003 num_pe s.pal).2,
            trace := s.trace ++ [Event.p003_entry num_pe] })

/-! ## `val_pcie_get_info` -/

/-- `val_pcie_get_info(type, index)`: the returned `uint64_t` and the state
after the call. -/
def val_pcie_get_info (P : Pal σ) (type : PCIE_INFO_e) (index : Nat) (s : State σ) :
    Nat × State σ :=
  match s.g_pcie_info_table with
  | none =>
    (0, val_print .AVS_PRINT_ERR "GET_PCIe_INFO: PCIE info table is not created \n" 0 s)
  | some t =>
    if index ≥ t.num_entries then
      if t.num_entries ≠ 0 then
        (0, val_print .AVS_PRINT_ERR "Invalid index %d > num of entries \n" index s)
      else
        (0, s)
    else
      match type with
      | .PCIE_INFO_NUM_ECAM => (t.num_entries, s)
      | .PCIE_INFO_MCFG_ECAM => pal_pcie_get_mcfg_ecam P s
      | .PCIE_INFO_ECAM => ((t.block index).ecam_base, s)
      | .PCIE_INFO_START_BUS => ((t.block index).start_bus_num, s)
      | .PCIE_INFO_END_BUS => ((t.block index).end_bus_num, s)
      | .PCIE_INFO_SEGMENT => ((t.block index).segment_num, s)
      | .other v =>
        (0, val_print .AVS_PRINT_ERR "This PCIE info option not supported %d \n" v s)

/-! ## `val_pcie_read_cfg` and `val_pcie_write_cfg` -/

/-- The `while` loop of `val_pcie_read_cfg` (lines 57-71) and of
`val_pcie_write_cfg` (lines 115-129); the two loops are the same text, up to
`return 0;` against `return;`. The arguments are the fuel, the loop counter `i`
and the state. The result is `none` when the fuel runs out; otherwise it is the
state on leaving the loop together with `none` when the function returned from
inside the loop (zero `ecam_base`), or `some ecam_base` when control reaches the
statement after the loop. `ecam_base` is 0 on entry and is only assigned right
before `break`, so a loop that ends on its condition leaves `some 0`. -/
def cfg_scan (P : Pal σ) (bus : Nat) : Nat → Nat → State σ → Option (Option Nat × State σ)
  | 0, i, s =>
    if i < (val_pcie_get_info P .PCIE_INFO_NUM_ECAM 0 s).1 then none
    else some (some 0, (val_pcie_get_info P .PCIE_INFO_NUM_ECAM 0 s).2)
  | fuel + 1, i, s =>
    let n := val_pcie_get_info P .PCIE_INFO_NUM_ECAM 0 s
    if i < n.1 then
      let sb := val_pcie_get_info P .PCIE_INFO_START_BUS i n.2
      if bus ≥ sb.1 then
        let eb := val_pcie_get_info P .PCIE_INFO_END_BUS i sb.2
        if bus ≤ eb.1 then
          let e := val_pcie_get_info P .PCIE_INFO_ECAM i eb.2
          if e.1 = 0 then
            some (none, val_print .AVS_PRINT_ERR "\n    Read PCIe_CFG: ECAM Base is zero " 0 e.2)
          else
            some (some e.1, e.2)
        else
          cfg_scan P bus fuel ((i + 1) % 2 ^ 32) eb.2
      else
        cfg_scan P bus fuel ((i + 1) % 2 ^ 32) sb.2
    else
      some (some 0, n.2)

/-- A call of `val_pcie_get_info` made by the scan: `in_body` is `false` for
the call in the loop condition (lines 57 and 115) and `true` for a call in the
loop body (lines 60-62 and 118-120); `type` and `index` are its arguments. -/
structure InfoCall where
  in_body : Bool
  type : PCIE_INFO_e
  index : Nat
  deriving DecidableEq, Repr

/-- The calls of `val_pcie_get_info` that the loop `cfg_scan` makes, in order,
for the same fuel, loop counter and state: the same control flow as `cfg_scan`,
keeping the arguments of each call instead of the outcome. -/
def cfg_scan_info_calls (P : Pal σ) (bus : Nat) : Nat → Nat → State σ → List InfoCall
  | 0, _, _ => [⟨false, .PCIE_INFO_NUM_ECAM, 0⟩]
  | fuel + 1, i, s =>
    let n := val_pcie_get_info P .PCIE_INFO_NUM_ECAM 0 s
    ⟨false, .PCIE_INFO_NUM_ECAM, 0⟩ ::
    if i < n.1 then
      let sb := val_pcie_get_info P .PCIE_INFO_START_BUS i n.2
      ⟨true, .PCIE_INFO_START_BUS, i⟩ ::
      if bus ≥ sb.1 then
        let eb := val_pcie_get_info P .PCIE_INFO_END_BUS i sb.2
        ⟨true, .PCIE_INFO_END_BUS, i⟩ ::
        if bus ≤ eb.1 then
          [⟨true, .PCIE_INFO_ECAM, i⟩]
        else
          cfg_scan_info_calls P bus fuel ((i + 1) % 2 ^ 32) eb.2
      else
        cfg_scan_info_calls P bus fuel ((i + 1) % 2 ^ 32) sb.2
    else
      []

/-- The `uint32_t` variable `bus` of the accessors. -/
def bdf_bus (H : Includes) (bdf : Nat) : Nat := H.PCIE_EXTRACT_BDF_BUS bdf % 2 ^ 32

/-- The `uint32_t` variable `dev` of the accessors. -/
def bdf_dev (H : Includes) (bdf : Nat) : Nat := H.PCIE_EXTRACT_BDF_DEV bdf % 2 ^ 32

/-- The `uint32_t` variable `func` of the accessors. -/
def bdf_func (H : Includes) (bdf : Nat) : Nat := H.PCIE_EXTRACT_BDF_FUNC bdf % 2 ^ 32

/-- The `uint32_t` variable `cfg_addr` of the accessors (lines 74-75 and
132-133), computed at 32 bits. -/
def cfg_addr (bus dev func : Nat) : Nat :=
  ((bus * PCIE_MAX_DEV * PCIE_MAX_FUNC * 4096) + (dev * PCIE_MAX_FUNC * 4096) + func) % 2 ^ 32

/-- The argument `ecam_base + cfg_addr + offset` of the MMIO call, computed in
the 64-bit type `addr_t` of `ecam_base`. -/
def cfg_target (ecam_base cfg offset : Nat) : Nat :=
  (ecam_base + cfg + offset) % 2 ^ 64

/-- `val_pcie_read_cfg(bdf, offset)` run with `fuel` for its loop: `none` when
the fuel runs out, otherwise the returned `uint32_t` and the state after the
call. -/
def val_pcie_read_cfg (P : Pal σ) (H : Includes) (fuel : Nat) (bdf offset : Nat)
    (s : State σ) : Option (Nat × State σ) :=
  let bus := bdf_bus H bdf
  let dev := bdf_dev H bdf
  let func := bdf_func H bdf
  if bus ≥ PCIE_MAX_BUS ∨ dev ≥ PCIE_MAX_DEV ∨ func ≥ PCIE_MAX_FUNC then
    some (0, val_print .AVS_PRINT_ERR "Invalid Bus/Dev/Func  %x \n" bdf s)
  else if s.g_pcie_info_table.isNone then
    some (0, val_print .AVS_PRINT_ERR
      "\n    Read_PCIe_CFG: PCIE info table is not created" 0 s)
  else
    match cfg_scan P bus fuel 0 s with
    | none => none
    | some (none, s1) => some (0, s1)
    | some (some ecam_base, s1) =>
      let target := cfg_target ecam_base (cfg_addr bus dev func) offset
      some (pal_mmio_read P target
        (val_print .AVS_PRINT_INFO "   calculated config address is %x \n" target s1))

/-- `val_pcie_write_cfg(bdf, offset, data)` run with `fuel` for its loop: `none`
when the fuel runs out, otherwise the state after the call. -/
def val_pcie_write_cfg (P : Pal σ) (H : Includes) (fuel : Nat) (bdf offset data : Nat)
    (s : State σ) : Option (State σ) :=
  let bus := bdf_bus H bdf
  let dev := bdf_dev H bdf
  let func := bdf_func H bdf
  if bus ≥ PCIE_MAX_BUS ∨ dev ≥ PCIE_MAX_DEV ∨ func ≥ PCIE_MAX_FUNC then
    some (val_print .AVS_PRINT_ERR "Invalid Bus/Dev/Func  %x \n" bdf s)
  else if s.g_pcie_info_table.isNone then
    some (val_print .AVS_PRINT_ERR "\n Write PCIe_CFG: PCIE info table is not created" 0 s)
  else
    match cfg_scan P bus fuel 0 s with
    | none => none
    | some (none, s1) => some s1
    | some (some ecam_base, s1) =>
      some (pal_mmio_write P (cfg_target ecam_base (cfg_addr bus dev func) offset) data s1)

/-! ## `val_pcie_free_info_table` -/

/-- The external `pal_mem_free`, as it acts on the buffer it is given and on the
platform state: `released t p` is what the memory of a buffer with contents `t`
holds once it has been released in platform state `p`, and `platform p` is the
platform state afterwards. -/
structure PalMem (σ : Type) where
  released : PCIE_INFO_TABLE → σ → PCIE_INFO_TABLE
  platform : σ → σ

/-- `val_pcie_free_info_table()`: the one call
`pal_mem_free((void *)g_pcie_info_table)` (line 214). The function does not
assign `g_pcie_info_table`, so a
`NULL` pointer stays `NULL` and a pointer to a table stays that pointer, now to
the released memory. -/
def val_pcie_free_info_table (M : PalMem σ) (s : State σ) : State σ :=
  { s with g_pcie_info_table := s.g_pcie_info_table.map (fun t => M.released t s.pal),
           pal := M.platform s.pal,
           trace := s.trace ++ [Event.pal_mem_free] }

/-! ## `val_pcie_execute_tests` -/

/-- The `for` loop over `g_skip_test_num` (lines 157-162), started at index `i`
with `k` iterations left: `true` when it reaches the `return` inside the loop,
`false` when it runs to its end. -/
def skip_scan (H : Includes) (g_skip_test_num : Nat → Nat) : Nat → Nat → Bool
  | 0, _ => false
  | k + 1, i =>
    if g_skip_test_num i = H.AVS_PCIE_TEST_NUM_BASE then true
    else skip_scan H g_skip_test_num k (i + 1)

/-- `val_pcie_execute_tests(level, num_pe)`: the returned status and the state
after the call. -/
def val_pcie_execute_tests (P : Pal σ) (H : Includes) (level num_pe : Nat) (s : State σ) :
    Nat × State σ :=
  if level = 0 then
    (H.AVS_STATUS_SKIP,
      val_print .AVS_PRINT_WARN "PCIe compliance is required  only from Level %d \n" 1 s)
  else if skip_scan H s.g_skip_test_num H.MAX_TEST_SKIP_NUM 0 then
    (H.AVS_STATUS_SKIP,
      val_print .AVS_PRINT_TEST "\n USER Override - Skipping all PCIe tests \n" 0 s)
  else
    let r1 := p001_entry P num_pe s
    if r1.1 ≠ AVS_STATUS_PASS then
      (r1.1, val_print .AVS_PRINT_WARN "\n     *** Skipping remaining PCIE tests *** \n" 0 r1.2)
    else
      let r2 := p002_entry P num_pe r1.2
      let status2 := r1.1 ||| r2.1
      let r3 := p003_entry P num_pe r2.2
      let status3 := status2 ||| r3.1
      if status3 ≠ AVS_STATUS_PASS then
        (status3, val_print .AVS_PRINT_ERR
          "\n     One or more PCIe tests have failed.... \n" status3 r3.2)
      else
        (status3, r3.2)

/-! ## Observations on traces -/

/-- Whether an event is a call of the MMIO primitive. -/
def Event.is_mmio : Event → Bool
  | .pal_mmio_read _ => true
  | .pal_mmio_write _ _ => true
  | _ => false

/-- Whether an event is a call of a test entry point. -/
def Event.is_test : Event → Bool
  | .p001_entry _ => true
  | .p002_entry _ => true
  | .p003_entry _ => true
  | _ => false

/-- Whether an event is a `val_print` at severity `AVS_PRINT_ERR`. -/
def Event.is_error : Event → Bool
  | .val_print .AVS_PRINT_ERR _ _ => true
  | _ => false

/-- The calls of the MMIO primitive in a trace, in order. -/
def mmio_calls (tr : List Event) : List Event := tr.filter Event.is_mmio

/-- The calls of test entry points in a trace, in order. -/
def test_calls (tr : List Event) : List Event := tr.filter Event.is_test

/-- The error messages logged in a trace, in order. -/
def error_logs (tr : List Event) : List Event := tr.filter Event.is_error

/-- The calls made between a state `s` and a later state `s1` of the same run:
the part of the later trace that follows the earlier one. -/
def calls_during (s s1 : State σ) : List Event := s1.trace.drop s.trace.length

/-- Whether the `[start_bus_num, end_bus_num]` range of entry `i` contains
`bus`: the condition of the `if` at lines 60-61 and 118-119. -/
def PCIE_INFO_TABLE.contains_bus (t : PCIE_INFO_TABLE) (i bus : Nat) : Prop :=
  (t.block i).start_bus_num ≤ bus ∧ bus ≤ (t.block i).end_bus_num

instance (t : PCIE_INFO_TABLE) : Decidable t.wf := by
  unfold PCIE_INFO_TABLE.wf
  infer_instance

instance (t : PCIE_INFO_TABLE) (i bus : Nat) : Decidable (t.contains_bus i bus) := by
  unfold PCIE_INFO_TABLE.contains_bus
  infer_instance

/-! ## Concrete instances -/

/-- An instance of the header parameters. The three extraction macros follow the
comment on `val_pcie_read_cfg`, "concatenated Bus(8-bits), device(8-bits) &
function(8-bits)", with the function in the low byte. -/
def sample_includes : Includes where
  PCIE_EXTRACT_BDF_BUS := fun bdf => (bdf >>> 16) &&& 0xFF
  PCIE_EXTRACT_BDF_DEV := fun bdf => (bdf >>> 8) &&& 0xFF
  PCIE_EXTRACT_BDF_FUNC := fun bdf => bdf &&& 0xFF
  AVS_STATUS_SKIP := 0x10000000
  AVS_PCIE_TEST_NUM_BASE := 400
  MAX_TEST_SKIP_NUM := 3

/-- A platform whose state is a memory from addresses to words: a write stores
the low 32 bits of the data, a read returns the stored word, the MCFG accessor
returns `mcfg` and the three tests return `r1`, `r2` and `r3`. -/
def stub_pal (mcfg r1 r2 r3 : Nat) : Pal (Nat → Nat) where
  mmio_read := fun addr mem => (mem addr, mem)
  mmio_write := fun addr data mem => fun a => if a = addr then data % 2 ^ 32 else mem a
  get_mcfg_ecam := fun mem => (mcfg, mem)
  p001 := fun _ mem => (r1, mem)
  p002 := fun _ mem => (r2, mem)
  p003 := fun _ mem => (r3, mem)

/-- A table with `n` entries, each equal to `b`. -/
def uniform_table (n : Nat) (b : PCIE_INFO_BLOCK) : PCIE_INFO_TABLE :=
  ⟨n, fun _ => b⟩

/-- A state with the given table pointer and skip list, a memory that reads
`0xFFFFFFFF` everywhere and an empty trace. -/
def sample_state (tbl : Option PCIE_INFO_TABLE) (skip : Nat → Nat) : State (Nat → Nat) :=
  ⟨tbl, skip, fun _ => 0xFFFFFFFF, []⟩

/-- A one-entry table whose region covers buses 0 to 255 and whose base lies
one megabyte below the top of the 64-bit address space. -/
def high_table : PCIE_INFO_TABLE :=
  uniform_table 1 ⟨0xFFFFFFFFFFF00000, 0, 0, 255⟩

/-- A one-entry table whose region covers buses 0 to 255 at base
`0x40000000`. -/
def low_table : PCIE_INFO_TABLE :=
  uniform_table 1 ⟨0x40000000, 0, 0, 255⟩

/-- A skip list with no entry set. -/
def empty_skip : Nat → Nat := fun _ => 0

/-- The later state `s1` extends the trace of `s` by calls none of which is an
MMIO call. -/
def mmio_quiet (s s1 : State σ) : Prop :=
  ∃ l, s1.trace = s.trace ++ l ∧ mmio_calls l = []

/-- A table with no entry. -/
def empty_table : PCIE_INFO_TABLE :=
  uniform_table 0 ⟨0, 0, 0, 0⟩

/-- An allocator that leaves released memory and the platform as they are. -/
def keep_mem : PalMem (Nat → Nat) where
  released := fun t _ => t
  platform := fun p => p

/-- A two-entry table in which both regions cover buses 0 to 255: entry 0 has
base `0x40000000` and entry 1 has base `b`. -/
def overlap_table (b : Nat) : PCIE_INFO_TABLE :=
  ⟨2, fun i => if i = 0 then ⟨0x40000000, 0, 0, 255⟩ else ⟨b, 1, 0, 255⟩⟩

/-- A two-entry table in which both regions cover buses 0 to 255: entry 0 has
base 0 and entry 1 has base `0x40000000`. -/
def shadowed_table : PCIE_INFO_TABLE :=
  ⟨2, fun i => if i = 0 then ⟨0, 0, 0, 255⟩ else ⟨0x40000000, 0, 0, 255⟩⟩

/-- A one-entry table whose region covers buses 16 to 31 only. -/
def narrow_table : PCIE_INFO_TABLE :=
  uniform_table 1 ⟨0x40000000, 0, 16, 31⟩

/-! ## Lemmas -/

theorem lor_eq_zero (a b : Nat) : a ||| b = 0 ↔ a = 0 ∧ b = 0 := by
  constructor
  · intro h
    have hbit : ∀ i, a.testBit i = false ∧ b.testBit i = false := by
      intro i
      have hi : (a ||| b).testBit i = false := by rw [h]; exact Nat.zero_testBit i
      rw [Nat.testBit_or] at hi
      simpa using hi
    constructor
    · exact Nat.eq_of_testBit_eq (fun i => by rw [(hbit i).1, Nat.zero_testBit])
    · exact Nat.eq_of_testBit_eq (fun i => by rw [(hbit i).2, Nat.zero_testBit])
  · rintro ⟨rfl, rfl⟩
    rfl

theorem calls_during_append (s s1 : State σ) (l : List Event)
    (h : s1.trace = s.trace ++ l) : calls_during s s1 = l := by
  unfold calls_during
  rw [h]
  exact List.drop_left _ _

theorem calls_during_self (s : State σ) : calls_during s s = [] := by
  unfold calls_during
  simp

/-- With the table created, the loop bound `val_pcie_get_info(PCIE_INFO_NUM_ECAM,
0)` is `num_entries` and the call leaves the state as it is, also on an empty
table. -/
theorem get_info_num_ecam_zero (P : Pal σ) (s : State σ) (t : PCIE_INFO_TABLE)
    (ht : s.g_pcie_info_table = some t) :
    val_pcie_get_info P .PCIE_INFO_NUM_ECAM 0 s = (t.num_entries, s) := by
  unfold val_pcie_get_info
  rw [ht]
  by_cases hn : t.num_entries = 0
  · simp [hn]
  · have : ¬ (0 ≥ t.num_entries) := by omega
    simp [this]

theorem get_info_start_bus (P : Pal σ) (s : State σ) (t : PCIE_INFO_TABLE)
    (ht : s.g_pcie_info_table = some t) (i : Nat) (hi : i < t.num_entries) :
    val_pcie_get_info P .PCIE_INFO_START_BUS i s = ((t.block i).start_bus_num, s) := by
  unfold val_pcie_get_info
  rw [ht]
  have : ¬ (i ≥ t.num_entries) := by omega
  simp [this]

theorem get_info_end_bus (P : Pal σ) (s : State σ) (t : PCIE_INFO_TABLE)
    (ht : s.g_pcie_info_table = some t) (i : Nat) (hi : i < t.num_entries) :
    val_pcie_get_info P .PCIE_INFO_END_BUS i s = ((t.block i).end_bus_num, s) := by
  unfold val_pcie_get_info
  rw [ht]
  have : ¬ (i ≥ t.num_entries) := by omega
  simp [this]

theorem get_info_ecam (P : Pal σ) (s : State σ) (t : PCIE_INFO_TABLE)
    (ht : s.g_pcie_info_table = some t) (i : Nat) (hi : i < t.num_entries) :
    val_pcie_get_info P .PCIE_INFO_ECAM i s = ((t.block i).ecam_base, s) := by
  unfold val_pcie_get_info
  rw [ht]
  have : ¬ (i ≥ t.num_entries) := by omega
  simp [this]

/-- One loop body at an entry whose range does not contain `bus`: the scan
moves on to the next index with the state unchanged. -/
theorem cfg_scan_skip (P : Pal σ) (bus fuel i : Nat) (s : State σ) (t : PCIE_INFO_TABLE)
    (ht : s.g_pcie_info_table = some t) (hn : t.num_entries < 2 ^ 32)
    (hi : i < t.num_entries) (hno : ¬ t.contains_bus i bus) :
    cfg_scan P bus (fuel + 1) i s = cfg_scan P bus fuel (i + 1) s := by
  have hmod : (i + 1) % 2 ^ 32 = i + 1 := Nat.mod_eq_of_lt (by omega)
  unfold PCIE_INFO_TABLE.contains_bus at hno
  rw [cfg_scan]
  simp only [get_info_num_ecam_zero P s t ht, get_info_start_bus P s t ht i hi,
    get_info_end_bus P s t ht i hi, hi, if_true, hmod]
  by_cases h1 : bus ≥ (t.block i).start_bus_num
  · have h2 : ¬ bus ≤ (t.block i).end_bus_num := fun h => hno ⟨h1, h⟩
    simp [h1, h2]
  · simp [h1]

/-- One loop body at an entry whose range contains `bus`: the scan ends there,
returning from the function on a zero base and leaving the loop with the base
otherwise. -/
theorem cfg_scan_hit (P : Pal σ) (bus fuel i : Nat) (s : State σ) (t : PCIE_INFO_TABLE)
    (ht : s.g_pcie_info_table = some t)
    (hi : i < t.num_entries) (hin : t.contains_bus i bus) :
    cfg_scan P bus (fuel + 1) i s =
      if (t.block i).ecam_base = 0 then
        some (none, val_print .AVS_PRINT_ERR "\n    Read PCIe_CFG: ECAM Base is zero " 0 s)
      else some (some (t.block i).ecam_base, s) := by
  unfold PCIE_INFO_TABLE.contains_bus at hin
  rw [cfg_scan]
  simp only [get_info_num_ecam_zero P s t ht, get_info_start_bus P s t ht i hi,
    get_info_end_bus P s t ht i hi, get_info_ecam P s t ht i hi, hi, if_true]
  simp [hin.1, hin.2]

/-- The scan from index `i` reaches the first entry `k ≥ i` whose range contains
`bus`, given fuel for the `k - i + 1` loop bodies. -/
theorem cfg_scan_first (P : Pal σ) (bus : Nat) (s : State σ) (t : PCIE_INFO_TABLE)
    (ht : s.g_pcie_info_table = some t) (hn : t.num_entries < 2 ^ 32)
    (k : Nat) (hk : k < t.num_entries) (hin : t.contains_bus k bus) :
    ∀ (fuel i : Nat), i ≤ k → k - i < fuel →
      (∀ j, i ≤ j → j < k → ¬ t.contains_bus j bus) →
      cfg_scan P bus fuel i s =
        if (t.block k).ecam_base = 0 then
          some (none, val_print .AVS_PRINT_ERR "\n    Read PCIe_CFG: ECAM Base is zero " 0 s)
        else some (some (t.block k).ecam_base, s) := by
  intro fuel
  induction fuel with
  | zero => intro i _ hf; omega
  | succ fuel ih =>
    intro i hik hf hfirst
    by_cases heq : i = k
    · subst heq
      exact cfg_scan_hit P bus fuel i s t ht hk hin
    · have hlt : i < k := by omega
      rw [cfg_scan_skip P bus fuel i s t ht hn (by omega) (hfirst i (le_refl i) hlt)]
      exact ih (i + 1) (by omega) (by omega) (fun j hj hjk => hfirst j (by omega) hjk)

/-- The scan from index `i` over entries none of whose ranges contains `bus`
runs to the end of the table and leaves `ecam_base` at 0. -/
theorem cfg_scan_none (P : Pal σ) (bus : Nat) (s : State σ) (t : PCIE_INFO_TABLE)
    (ht : s.g_pcie_info_table = some t) (hn : t.num_entries < 2 ^ 32) :
    ∀ (fuel i : Nat), t.num_entries - i ≤ fuel →
      (∀ j, i ≤ j → j < t.num_entries → ¬ t.contains_bus j bus) →
      cfg_scan P bus fuel i s = some (some 0, s) := by
  intro fuel
  induction fuel with
  | zero =>
    intro i hf _
    have : ¬ i < t.num_entries := by omega
    rw [cfg_scan]
    simp [get_info_num_ecam_zero P s t ht, this]
  | succ fuel ih =>
    intro i hf hnone
    by_cases hi : i < t.num_entries
    · rw [cfg_scan_skip P bus fuel i s t ht hn hi (hnone i (le_refl i) hi)]
      exact ih (i + 1) (by omega) (fun j hj hjn => hnone j (by omega) hjn)
    · rw [cfg_scan]
      simp [get_info_num_ecam_zero P s t ht, hi]

/-- The skip-list loop returns from inside exactly when one of the `k` slots
from `i` on holds `AVS_PCIE_TEST_NUM_BASE`. -/
theorem skip_scan_eq_true (H : Includes) (g : Nat → Nat) :
    ∀ (k i : Nat), skip_scan H g k i = true ↔
      ∃ j, i ≤ j ∧ j < i + k ∧ g j = H.AVS_PCIE_TEST_NUM_BASE := by
  intro k
  induction k with
  | zero =>
    intro i
    simp only [skip_scan, Nat.add_zero]
    constructor
    · intro h
      exact absurd h (by decide)
    · rintro ⟨j, h1, h2, _⟩
      omega
  | succ k ih =>
    intro i
    rw [skip_scan]
    by_cases h : g i = H.AVS_PCIE_TEST_NUM_BASE
    · simp only [h, if_true, true_iff]
      exact ⟨i, le_refl i, by omega, h⟩
    · simp only [h, if_false]
      rw [ih (i + 1)]
      constructor
      · rintro ⟨j, h1, h2, h3⟩
        exact ⟨j, by omega, by omega, h3⟩
      · rintro ⟨j, h1, h2, h3⟩
        have hne : j ≠ i := fun e => h (e ▸ h3)
        exact ⟨j, by omega, by omega, h3⟩

/-- For a bus, device and function that pass the range check, the 32-bit
`cfg_addr` is the plain value of its expression. -/
theorem cfg_addr_of_valid (bus dev func : Nat) (hb : bus < 256) (hd : dev < 32)
    (hf : func < 8) :
    cfg_addr bus dev func = bus * 32 * 8 * 4096 + dev * 8 * 4096 + func := by
  unfold cfg_addr PCIE_MAX_DEV PCIE_MAX_FUNC
  apply Nat.mod_eq_of_lt
  omega

/-- The range check of the accessors fails exactly when one component is at or
above its maximum. -/
theorem range_check_iff (bus dev func : Nat) :
    (bus ≥ PCIE_MAX_BUS ∨ dev ≥ PCIE_MAX_DEV ∨ func ≥ PCIE_MAX_FUNC) ↔
      (bus ≥ 256 ∨ dev ≥ 32 ∨ func ≥ 8) := by
  unfold PCIE_MAX_BUS PCIE_MAX_DEV PCIE_MAX_FUNC
  exact Iff.rfl

/-- The accessor `val_pcie_read_cfg` past its two guards: what is left is the
scan and the access. -/
theorem read_cfg_past_guards (P : Pal σ) (H : Includes) (fuel bdf offset : Nat)
    (s : State σ) (t : PCIE_INFO_TABLE) (ht : s.g_pcie_info_table = some t)
    (hb : bdf_bus H bdf < 256) (hd : bdf_dev H bdf < 32) (hf : bdf_func H bdf < 8) :
    val_pcie_read_cfg P H fuel bdf offset s =
      match cfg_scan P (bdf_bus H bdf) fuel 0 s with
      | none => none
      | some (none, s1) => some (0, s1)
      | some (some ecam_base, s1) =>
        some (pal_mmio_read P
          (cfg_target ecam_base (cfg_addr (bdf_bus H bdf) (bdf_dev H bdf) (bdf_func H bdf))
            offset)
          (val_print .AVS_PRINT_INFO "   calculated config address is %x \n"
            (cfg_target ecam_base
              (cfg_addr (bdf_bus H bdf) (bdf_dev H bdf) (bdf_func H bdf)) offset) s1)) := by
  have hg : ¬ (bdf_bus H bdf ≥ PCIE_MAX_BUS ∨ bdf_dev H bdf ≥ PCIE_MAX_DEV ∨
      bdf_func H bdf ≥ PCIE_MAX_FUNC) := by
    rw [range_check_iff]
    omega
  unfold val_pcie_read_cfg
  simp only [hg, if_false, ht, Option.isNone_some]
  rfl

/-- The accessor `val_pcie_write_cfg` past its two guards: what is left is the
scan and the access. -/
theorem write_cfg_past_guards (P : Pal σ) (H : Includes) (fuel bdf offset data : Nat)
    (s : State σ) (t : PCIE_INFO_TABLE) (ht : s.g_pcie_info_table = some t)
    (hb : bdf_bus H bdf < 256) (hd : bdf_dev H bdf < 32) (hf : bdf_func H bdf < 8) :
    val_pcie_write_cfg P H fuel bdf offset data s =
      match cfg_scan P (bdf_bus H bdf) fuel 0 s with
      | none => none
      | some (none, s1) => some s1
      | some (some ecam_base, s1) =>
        some (pal_mmio_write P
          (cfg_target ecam_base (cfg_addr (bdf_bus H bdf) (bdf_dev H bdf) (bdf_func H bdf))
            offset) data s1) := by
  have hg : ¬ (bdf_bus H bdf ≥ PCIE_MAX_BUS ∨ bdf_dev H bdf ≥ PCIE_MAX_DEV ∨
      bdf_func H bdf ≥ PCIE_MAX_FUNC) := by
    rw [range_check_iff]
    omega
  unfold val_pcie_write_cfg
  simp only [hg, if_false, ht, Option.isNone_some]
  rfl

theorem mmio_calls_val_print_read (P : Pal σ) (level : PrintLevel) (msg : String)
    (data addr : Nat) (s : State σ) :
    mmio_calls (calls_during s (pal_mmio_read P addr (val_print level msg data s)).2) =
      [Event.pal_mmio_read addr] := by
  rw [calls_during_append s _ [Event.val_print level msg data, Event.pal_mmio_read addr]
    (by simp [pal_mmio_read, val_print])]
  rfl

theorem mmio_calls_val_print (level : PrintLevel) (msg : String) (data : Nat) (s : State σ) :
    mmio_calls (calls_during s (val_print level msg data s)) = [] := by
  rw [calls_during_append s _ [Event.val_print level msg data] (by simp [val_print])]
  rfl

/-- A failed range check in `val_pcie_read_cfg`: 0 is returned and no MMIO call
is made. -/
theorem invalid_bdf_read_no_mmio (P : Pal σ) (H : Includes) (fuel bdf offset : Nat)
    (s : State σ)
    (hg : bdf_bus H bdf ≥ PCIE_MAX_BUS ∨ bdf_dev H bdf ≥ PCIE_MAX_DEV ∨
      bdf_func H bdf ≥ PCIE_MAX_FUNC) :
    (val_pcie_read_cfg P H fuel bdf offset s).map
        (fun r => (r.1, mmio_calls (calls_during s r.2))) = some (0, []) := by
  unfold val_pcie_read_cfg
  simp only [hg, if_true, Option.map_some', mmio_calls_val_print]

/-- A failed range check in `val_pcie_write_cfg`: no MMIO call is made. -/
theorem invalid_bdf_write_no_mmio (P : Pal σ) (H : Includes)
    (fuel bdf offset data : Nat) (s : State σ)
    (hg : bdf_bus H bdf ≥ PCIE_MAX_BUS ∨ bdf_dev H bdf ≥ PCIE_MAX_DEV ∨
      bdf_func H bdf ≥ PCIE_MAX_FUNC) :
    (val_pcie_write_cfg P H fuel bdf offset data s).map
        (fun s1 => mmio_calls (calls_during s s1)) = some [] := by
  unfold val_pcie_write_cfg
  simp only [hg, if_true, Option.map_some', mmio_calls_val_print]

/-- No slot of the skip list holds `AVS_PCIE_TEST_NUM_BASE`: the skip-list loop
runs to its end. -/
theorem skip_scan_eq_false (H : Includes) (g : Nat → Nat)
    (hskip : ∀ i, i < H.MAX_TEST_SKIP_NUM → g i ≠ H.AVS_PCIE_TEST_NUM_BASE) :
    skip_scan H g H.MAX_TEST_SKIP_NUM 0 = false := by
  cases hb : skip_scan H g H.MAX_TEST_SKIP_NUM 0 with
  | false => rfl
  | true =>
    obtain ⟨j, _, hj, hbase⟩ := (skip_scan_eq_true H g H.MAX_TEST_SKIP_NUM 0).1 hb
    exact absurd hbase (hskip j (by omega))

/-- Past the level check and the skip-list check, with a gate test that does
not pass, `val_pcie_execute_tests` returns after `p001_entry`. -/
theorem execute_tests_gate_closed (P : Pal σ) (H : Includes) (level num_pe : Nat)
    (s : State σ) (hl : level ≠ 0)
    (hskip : ∀ i, i < H.MAX_TEST_SKIP_NUM → s.g_skip_test_num i ≠ H.AVS_PCIE_TEST_NUM_BASE)
    (hgate : (p001_entry P num_pe s).1 ≠ AVS_STATUS_PASS) :
    val_pcie_execute_tests P H level num_pe s =
      ((p001_entry P num_pe s).1,
        val_print .AVS_PRINT_WARN "\n     *** Skipping remaining PCIE tests *** \n" 0
          (p001_entry P num_pe s).2) := by
  unfold val_pcie_execute_tests
  simp only [hl, if_false, skip_scan_eq_false H s.g_skip_test_num hskip, Bool.false_eq_true]
  rw [if_pos hgate]

/-- Past the level check and the skip-list check, with a gate test that passes,
`val_pcie_execute_tests` runs `p002_entry` and `p003_entry` and returns the OR
of their statuses. -/
theorem execute_tests_gate_open (P : Pal σ) (H : Includes) (level num_pe : Nat)
    (s : State σ) (hl : level ≠ 0)
    (hskip : ∀ i, i < H.MAX_TEST_SKIP_NUM → s.g_skip_test_num i ≠ H.AVS_PCIE_TEST_NUM_BASE)
    (hgate : (p001_entry P num_pe s).1 = AVS_STATUS_PASS) :
    (val_pcie_execute_tests P H level num_pe s).1 =
      (p002_entry P num_pe (p001_entry P num_pe s).2).1 |||
        (p003_entry P num_pe (p002_entry P num_pe (p001_entry P num_pe s).2).2).1 ∧
    ∃ l, (val_pcie_execute_tests P H level num_pe s).2.trace =
      s.trace ++ ([Event.p001_entry num_pe, Event.p002_entry num_pe,
        Event.p003_entry num_pe] ++ l) ∧ test_calls l = [] := by
  unfold val_pcie_execute_tests
  simp only [hl, if_false, skip_scan_eq_false H s.g_skip_test_num hskip, Bool.false_eq_true]
  rw [if_neg (not_not.2 hgate), hgate]
  simp only [AVS_STATUS_PASS, Nat.zero_or]
  split
  · refine ⟨rfl, [Event.val_print .AVS_PRINT_ERR
      "\n     One or more PCIe tests have failed.... \n"
      ((p002_entry P num_pe (p001_entry P num_pe s).2).1 |||
        (p003_entry P num_pe (p002_entry P num_pe (p001_entry P num_pe s).2).2).1)], ?_, rfl⟩
    simp [val_print, p001_entry, p002_entry, p003_entry]
  · refine ⟨rfl, [], ?_, rfl⟩
    simp [p001_entry, p002_entry, p003_entry]

/-- The level check of `val_pcie_execute_tests` at level 0. -/
theorem level_zero_skips (P : Pal σ) (H : Includes) (num_pe : Nat)
    (s : State σ) :
    (val_pcie_execute_tests P H 0 num_pe s).1 = H.AVS_STATUS_SKIP ∧
    test_calls (calls_during s (val_pcie_execute_tests P H 0 num_pe s).2) = [] := by
  unfold val_pcie_execute_tests
  simp only [if_true]
  refine ⟨trivial, ?_⟩
  rw [calls_during_append s _ [Event.val_print .AVS_PRINT_WARN
    "PCIe compliance is required  only from Level %d \n" 1] (by simp [val_print])]
  rfl

/-! ## Theorems on the configuration-space accessors -/

/-- C1, as amended: on a created, well-typed table, for a bdf with bus < 256,
device < 32 and function < 8, if entry `k` is the first whose bus range contains
the bus and its `ecam_base` is not zero, then with fuel for the scan
`val_pcie_read_cfg` logs the address, calls `pal_mmio_read` exactly once, at
`(ecam_base + bus*32*8*4096 + device*8*4096 + function + offset) mod 2^64`, and
returns what that read yields; no other MMIO call is made. -/
theorem val_pcie_read_cfg_resolved (P : Pal σ) (H : Includes) (fuel bdf offset : Nat)
    (s : State σ) (t : PCIE_INFO_TABLE) (k : Nat)
    (ht : s.g_pcie_info_table = some t) (hwf : t.wf) (hfuel : t.num_entries ≤ fuel)
    (hb : bdf_bus H bdf < 256) (hd : bdf_dev H bdf < 32) (hf : bdf_func H bdf < 8)
    (hk : k < t.num_entries) (hin : t.contains_bus k (bdf_bus H bdf))
    (hfirst : ∀ j, j < k → ¬ t.contains_bus j (bdf_bus H bdf))
    (hbase : (t.block k).ecam_base ≠ 0) :
    val_pcie_read_cfg P H fuel bdf offset s =
      some (pal_mmio_read P
        (((t.block k).ecam_base + bdf_bus H bdf * 32 * 8 * 4096 + bdf_dev H bdf * 8 * 4096
          + bdf_func H bdf + offset) % 2 ^ 64)
        (val_print .AVS_PRINT_INFO "   calculated config address is %x \n"
          (((t.block k).ecam_base + bdf_bus H bdf * 32 * 8 * 4096
            + bdf_dev H bdf * 8 * 4096 + bdf_func H bdf + offset) % 2 ^ 64) s)) ∧
    (val_pcie_read_cfg P H fuel bdf offset s).map
        (fun r => (r.1, mmio_calls (calls_during s r.2))) =
      some ((P.mmio_read
          (((t.block k).ecam_base + bdf_bus H bdf * 32 * 8 * 4096 + bdf_dev H bdf * 8 * 4096
            + bdf_func H bdf + offset) % 2 ^ 64) s.pal).1 % 2 ^ 32,
        [Event.pal_mmio_read
          (((t.block k).ecam_base + bdf_bus H bdf * 32 * 8 * 4096 + bdf_dev H bdf * 8 * 4096
            + bdf_func H bdf + offset) % 2 ^ 64)]) := by
  have hscan := cfg_scan_first P (bdf_bus H bdf) s t ht hwf.1 k hk hin fuel 0
    (Nat.zero_le k) (by omega) (fun j _ hjk => hfirst j hjk)
  rw [if_neg hbase] at hscan
  have hrun := read_cfg_past_guards P H fuel bdf offset s t ht hb hd hf
  rw [hscan] at hrun
  have haddr : cfg_target (t.block k).ecam_base
      (cfg_addr (bdf_bus H bdf) (bdf_dev H bdf) (bdf_func H bdf)) offset =
      ((t.block k).ecam_base + bdf_bus H bdf * 32 * 8 * 4096 + bdf_dev H bdf * 8 * 4096
        + bdf_func H bdf + offset) % 2 ^ 64 := by
    rw [cfg_addr_of_valid _ _ _ hb hd hf]
    unfold cfg_target
    congr 1
    omega
  simp only [haddr] at hrun
  refine ⟨hrun, ?_⟩
  rw [hrun, Option.map_some', mmio_calls_val_print_read]
  rfl

/-- C1, witness: the amended statement at a one-entry table with base
`0x40000000`, bdf `0x010203` (bus 1, device 2, function 3) and offset 4. -/
theorem val_pcie_read_cfg_resolved_witness :
    (sample_state (some low_table) empty_skip).g_pcie_info_table = some low_table ∧
    low_table.wf ∧ low_table.num_entries ≤ 1 ∧
    bdf_bus sample_includes 0x010203 < 256 ∧ bdf_dev sample_includes 0x010203 < 32 ∧
    bdf_func sample_includes 0x010203 < 8 ∧ 0 < low_table.num_entries ∧
    low_table.contains_bus 0 (bdf_bus sample_includes 0x010203) ∧
    (low_table.block 0).ecam_base ≠ 0 ∧
    (val_pcie_read_cfg (stub_pal 0 0 0 0) sample_includes 1 0x010203 4
        (sample_state (some low_table) empty_skip)).map
        (fun r => (r.1, mmio_calls (calls_during (sample_state (some low_table) empty_skip) r.2))) =
      some (((stub_pal 0 0 0 0).mmio_read
          (((low_table.block 0).ecam_base + bdf_bus sample_includes 0x010203 * 32 * 8 * 4096
            + bdf_dev sample_includes 0x010203 * 8 * 4096
            + bdf_func sample_includes 0x010203 + 4) % 2 ^ 64)
          (sample_state (some low_table) empty_skip).pal).1 % 2 ^ 32,
        [Event.pal_mmio_read
          (((low_table.block 0).ecam_base + bdf_bus sample_includes 0x010203 * 32 * 8 * 4096
            + bdf_dev sample_includes 0x010203 * 8 * 4096
            + bdf_func sample_includes 0x010203 + 4) % 2 ^ 64)]) :=
  ⟨rfl, by decide, by decide, by decide, by decide, by decide, by decide, by decide, by decide,
    (val_pcie_read_cfg_resolved (stub_pal 0 0 0 0) sample_includes 1 0x010203 4
      (sample_state (some low_table) empty_skip) low_table 0 rfl (by decide) (by decide)
      (by decide) (by decide) (by decide) (by decide) (by decide)
      (fun j hj => absurd hj (Nat.not_lt_zero j)) (by decide)).2⟩

/-- C1, counterexample to the claim as stated: with a one-entry table whose
region covers bus 1 and whose non-zero base is `0xFFFFFFFFFFF00000`, the read of
bdf `0x010000` (bus 1, device 0, function 0) at offset 0 is issued at address 0,
not at the sum `0xFFFFFFFFFFF00000 + 1*32*8*4096 + 0*8*4096 + 0 + 0`, which is
`2^64`. -/
theorem val_pcie_read_cfg_sum_wraps :
    (sample_state (some high_table) empty_skip).g_pcie_info_table = some high_table ∧
    high_table.wf ∧
    bdf_bus sample_includes 0x010000 = 1 ∧ bdf_dev sample_includes 0x010000 = 0 ∧
    bdf_func sample_includes 0x010000 = 0 ∧
    high_table.contains_bus 0 1 ∧ (high_table.block 0).ecam_base = 0xFFFFFFFFFFF00000 ∧
    (val_pcie_read_cfg (stub_pal 0 0 0 0) sample_includes 1 0x010000 0
        (sample_state (some high_table) empty_skip)).map
        (fun r => mmio_calls (calls_during (sample_state (some high_table) empty_skip) r.2)) =
      some [Event.pal_mmio_read 0] ∧
    (val_pcie_read_cfg (stub_pal 0 0 0 0) sample_includes 1 0x010000 0
        (sample_state (some high_table) empty_skip)).map
        (fun r => mmio_calls (calls_during (sample_state (some high_table) empty_skip) r.2)) ≠
      some [Event.pal_mmio_read (0xFFFFFFFFFFF00000 + 1 * 32 * 8 * 4096 + 0 * 8 * 4096 + 0 + 0)] := by
  refine ⟨rfl, by decide, by decide, by decide, by decide, by decide, by decide, by decide, ?_⟩
  decide

/-- C2: for a bdf whose extracted bus is at least 256, or device at least 32,
or function at least 8, whatever the offset, the data and the state (table
created or not), `val_pcie_read_cfg` returns 0 and `val_pcie_write_cfg`
returns, each after one error message and without any MMIO call. -/
theorem val_pcie_cfg_invalid_bdf (P : Pal σ) (H : Includes) (fuel bdf offset data : Nat)
    (s : State σ)
    (h : bdf_bus H bdf ≥ 256 ∨ bdf_dev H bdf ≥ 32 ∨ bdf_func H bdf ≥ 8) :
    val_pcie_read_cfg P H fuel bdf offset s =
      some (0, val_print .AVS_PRINT_ERR "Invalid Bus/Dev/Func  %x \n" bdf s) ∧
    (val_pcie_read_cfg P H fuel bdf offset s).map
        (fun r => (r.1, mmio_calls (calls_during s r.2))) = some (0, []) ∧
    val_pcie_write_cfg P H fuel bdf offset data s =
      some (val_print .AVS_PRINT_ERR "Invalid Bus/Dev/Func  %x \n" bdf s) ∧
    (val_pcie_write_cfg P H fuel bdf offset data s).map
        (fun s1 => mmio_calls (calls_during s s1)) = some [] := by
  have hg : bdf_bus H bdf ≥ PCIE_MAX_BUS ∨ bdf_dev H bdf ≥ PCIE_MAX_DEV ∨
      bdf_func H bdf ≥ PCIE_MAX_FUNC := (range_check_iff _ _ _).2 h
  have hr : val_pcie_read_cfg P H fuel bdf offset s =
      some (0, val_print .AVS_PRINT_ERR "Invalid Bus/Dev/Func  %x \n" bdf s) := by
    unfold val_pcie_read_cfg
    simp only [hg, if_true]
  have hw : val_pcie_write_cfg P H fuel bdf offset data s =
      some (val_print .AVS_PRINT_ERR "Invalid Bus/Dev/Func  %x \n" bdf s) := by
    unfold val_pcie_write_cfg
    simp only [hg, if_true]
  refine ⟨hr, ?_, hw, ?_⟩
  · rw [hr, Option.map_some', mmio_calls_val_print]
  · rw [hw, Option.map_some', mmio_calls_val_print]

/-- C2, witness: bdf `0x002000` has device 32; the table is created and would
resolve bus 0. -/
theorem val_pcie_cfg_invalid_bdf_witness :
    (bdf_bus sample_includes 0x002000 ≥ 256 ∨ bdf_dev sample_includes 0x002000 ≥ 32 ∨
      bdf_func sample_includes 0x002000 ≥ 8) ∧
    (val_pcie_read_cfg (stub_pal 0 0 0 0) sample_includes 1 0x002000 0
        (sample_state (some low_table) empty_skip)).map
        (fun r => (r.1, mmio_calls (calls_during (sample_state (some low_table) empty_skip) r.2))) =
      some (0, []) ∧
    (val_pcie_write_cfg (stub_pal 0 0 0 0) sample_includes 1 0x002000 0 7
        (sample_state (some low_table) empty_skip)).map
        (fun s1 => mmio_calls (calls_during (sample_state (some low_table) empty_skip) s1)) =
      some [] :=
  ⟨by decide,
    (val_pcie_cfg_invalid_bdf (stub_pal 0 0 0 0) sample_includes 1 0x002000 0 7
      (sample_state (some low_table) empty_skip) (by decide)).2.1,
    (val_pcie_cfg_invalid_bdf (stub_pal 0 0 0 0) sample_includes 1 0x002000 0 7
      (sample_state (some low_table) empty_skip) (by decide)).2.2.2⟩

/-- C10: while `g_pcie_info_table` is `NULL`, `val_pcie_get_info` returns 0 for
every selector and index and makes no call but its error message,
`val_pcie_read_cfg` returns 0 for every bdf and offset, and neither
`val_pcie_read_cfg` nor `val_pcie_write_cfg` makes an MMIO call. -/
theorem val_pcie_table_not_created (P : Pal σ) (H : Includes) (type : PCIE_INFO_e)
    (index fuel bdf offset data : Nat) (s : State σ)
    (h : s.g_pcie_info_table = none) :
    val_pcie_get_info P type index s =
      (0, val_print .AVS_PRINT_ERR "GET_PCIe_INFO: PCIE info table is not created \n" 0 s) ∧
    (val_pcie_read_cfg P H fuel bdf offset s).map
        (fun r => (r.1, mmio_calls (calls_during s r.2))) = some (0, []) ∧
    (val_pcie_write_cfg P H fuel bdf offset data s).map
        (fun s1 => mmio_calls (calls_during s s1)) = some [] := by
  refine ⟨?_, ?_, ?_⟩
  · unfold val_pcie_get_info
    rw [h]
  · by_cases hg : bdf_bus H bdf ≥ PCIE_MAX_BUS ∨ bdf_dev H bdf ≥ PCIE_MAX_DEV ∨
        bdf_func H bdf ≥ PCIE_MAX_FUNC
    · exact (invalid_bdf_read_no_mmio P H fuel bdf offset s hg)
    · unfold val_pcie_read_cfg
      simp only [hg, if_false, h, Option.isNone_none, if_true, Option.map_some',
        mmio_calls_val_print]
  · by_cases hg : bdf_bus H bdf ≥ PCIE_MAX_BUS ∨ bdf_dev H bdf ≥ PCIE_MAX_DEV ∨
        bdf_func H bdf ≥ PCIE_MAX_FUNC
    · exact (invalid_bdf_write_no_mmio P H fuel bdf offset data s hg)
    · unfold val_pcie_write_cfg
      simp only [hg, if_false, h, Option.isNone_none, if_true, Option.map_some',
        mmio_calls_val_print]

/-- C10, witness: a state in which the table has not been created. -/
theorem val_pcie_table_not_created_witness :
    (sample_state none empty_skip).g_pcie_info_table = none ∧
    val_pcie_get_info (stub_pal 0 0 0 0) .PCIE_INFO_ECAM 0 (sample_state none empty_skip) =
      (0, val_print .AVS_PRINT_ERR "GET_PCIe_INFO: PCIE info table is not created \n" 0
        (sample_state none empty_skip)) ∧
    (val_pcie_read_cfg (stub_pal 0 0 0 0) sample_includes 1 0x010203 4
        (sample_state none empty_skip)).map
        (fun r => (r.1, mmio_calls (calls_during (sample_state none empty_skip) r.2))) =
      some (0, []) ∧
    (val_pcie_write_cfg (stub_pal 0 0 0 0) sample_includes 1 0x010203 4 7
        (sample_state none empty_skip)).map
        (fun s1 => mmio_calls (calls_during (sample_state none empty_skip) s1)) = some [] :=
  ⟨rfl, val_pcie_table_not_created (stub_pal 0 0 0 0) sample_includes .PCIE_INFO_ECAM 0 1
    0x010203 4 7 (sample_state none empty_skip) rfl⟩

/-! ## Theorems on the test sequencer -/

/-- C3: for a level other than 0 and a skip list without
`AVS_PCIE_TEST_NUM_BASE`, if `p001_entry` returns a status other than PASS then
`val_pcie_execute_tests` returns that status, and the only test entry point it
calls is `p001_entry`, once: neither `p002_entry` nor `p003_entry` is called. -/
theorem val_pcie_execute_tests_gate_fails (P : Pal σ) (H : Includes) (level num_pe : Nat)
    (s : State σ) (hl : level ≠ 0)
    (hskip : ∀ i, i < H.MAX_TEST_SKIP_NUM → s.g_skip_test_num i ≠ H.AVS_PCIE_TEST_NUM_BASE)
    (hgate : (p001_entry P num_pe s).1 ≠ AVS_STATUS_PASS) :
    (val_pcie_execute_tests P H level num_pe s).1 = (p001_entry P num_pe s).1 ∧
    test_calls (calls_during s (val_pcie_execute_tests P H level num_pe s).2) =
      [Event.p001_entry num_pe] := by
  rw [execute_tests_gate_closed P H level num_pe s hl hskip hgate]
  refine ⟨rfl, ?_⟩
  rw [calls_during_append s _ [Event.p001_entry num_pe, Event.val_print .AVS_PRINT_WARN
    "\n     *** Skipping remaining PCIE tests *** \n" 0] (by simp [val_print, p001_entry])]
  rfl

/-- C3, witness: level 1, an empty skip list and a gate test that returns the
non-PASS status `0x90000000`. -/
theorem val_pcie_execute_tests_gate_fails_witness :
    (1 : Nat) ≠ 0 ∧
    (∀ i, i < sample_includes.MAX_TEST_SKIP_NUM →
      (sample_state (some low_table) empty_skip).g_skip_test_num i ≠
        sample_includes.AVS_PCIE_TEST_NUM_BASE) ∧
    (p001_entry (stub_pal 0 0x90000000 0 0) 4 (sample_state (some low_table) empty_skip)).1 ≠
      AVS_STATUS_PASS ∧
    (val_pcie_execute_tests (stub_pal 0 0x90000000 0 0) sample_includes 1 4
        (sample_state (some low_table) empty_skip)).1 =
      (p001_entry (stub_pal 0 0x90000000 0 0) 4 (sample_state (some low_table) empty_skip)).1 ∧
    test_calls (calls_during (sample_state (some low_table) empty_skip)
        (val_pcie_execute_tests (stub_pal 0 0x90000000 0 0) sample_includes 1 4
          (sample_state (some low_table) empty_skip)).2) = [Event.p001_entry 4] :=
  ⟨by decide, by decide, by decide,
    val_pcie_execute_tests_gate_fails (stub_pal 0 0x90000000 0 0) sample_includes 1 4
      (sample_state (some low_table) empty_skip) (by decide) (by decide) (by decide)⟩

/-- C4: for a level other than 0 and a skip list without
`AVS_PCIE_TEST_NUM_BASE`, if `p001_entry` returns PASS then the test entry
points called are `p001_entry`, `p002_entry`, `p003_entry`, once each, in that
order and each with `num_pe`, whatever `p002_entry` returns; the result is the
bitwise OR of the statuses of `p002_entry` and `p003_entry`, and it is not PASS
when either of the two is not PASS. -/
theorem val_pcie_execute_tests_gate_passes (P : Pal σ) (H : Includes) (level num_pe : Nat)
    (s : State σ) (hl : level ≠ 0)
    (hskip : ∀ i, i < H.MAX_TEST_SKIP_NUM → s.g_skip_test_num i ≠ H.AVS_PCIE_TEST_NUM_BASE)
    (hgate : (p001_entry P num_pe s).1 = AVS_STATUS_PASS) :
    test_calls (calls_during s (val_pcie_execute_tests P H level num_pe s).2) =
      [Event.p001_entry num_pe, Event.p002_entry num_pe, Event.p003_entry num_pe] ∧
    (val_pcie_execute_tests P H level num_pe s).1 =
      (p002_entry P num_pe (p001_entry P num_pe s).2).1 |||
        (p003_entry P num_pe (p002_entry P num_pe (p001_entry P num_pe s).2).2).1 ∧
    (((p002_entry P num_pe (p001_entry P num_pe s).2).1 ≠ AVS_STATUS_PASS ∨
      (p003_entry P num_pe (p002_entry P num_pe (p001_entry P num_pe s).2).2).1 ≠
        AVS_STATUS_PASS) →
      (val_pcie_execute_tests P H level num_pe s).1 ≠ AVS_STATUS_PASS) := by
  obtain ⟨hval, l, htr, hl0⟩ := execute_tests_gate_open P H level num_pe s hl hskip hgate
  refine ⟨?_, hval, ?_⟩
  · rw [calls_during_append s _ _ htr]
    unfold test_calls at hl0 ⊢
    rw [List.filter_append, hl0]
    rfl
  · intro hor hpass
    rw [hval] at hpass
    unfold AVS_STATUS_PASS at hor hpass
    have := (lor_eq_zero _ _).1 hpass
    omega

/-- C4, witness: level 1, an empty skip list, a gate test that passes, a second
test that returns `0x90000000` and a third that returns PASS. -/
theorem val_pcie_execute_tests_gate_passes_witness :
    (1 : Nat) ≠ 0 ∧
    (∀ i, i < sample_includes.MAX_TEST_SKIP_NUM →
      (sample_state (some low_table) empty_skip).g_skip_test_num i ≠
        sample_includes.AVS_PCIE_TEST_NUM_BASE) ∧
    (p001_entry (stub_pal 0 0 0x90000000 0) 4 (sample_state (some low_table) empty_skip)).1 =
      AVS_STATUS_PASS ∧
    test_calls (calls_during (sample_state (some low_table) empty_skip)
        (val_pcie_execute_tests (stub_pal 0 0 0x90000000 0) sample_includes 1 4
          (sample_state (some low_table) empty_skip)).2) =
      [Event.p001_entry 4, Event.p002_entry 4, Event.p003_entry 4] :=
  ⟨by decide, by decide, by decide,
    (val_pcie_execute_tests_gate_passes (stub_pal 0 0 0x90000000 0) sample_includes 1 4
      (sample_state (some low_table) empty_skip) (by decide) (by decide) (by decide)).1⟩

/-- C5: at level 0, whatever `num_pe`, the skip list and the rest of the state,
`val_pcie_execute_tests` returns `AVS_STATUS_SKIP` after one warning and calls
none of `p001_entry`, `p002_entry`, `p003_entry`. -/
theorem val_pcie_execute_tests_level_zero (P : Pal σ) (H : Includes) (num_pe : Nat)
    (s : State σ) :
    (val_pcie_execute_tests P H 0 num_pe s).1 = H.AVS_STATUS_SKIP ∧
    test_calls (calls_during s (val_pcie_execute_tests P H 0 num_pe s).2) = [] ∧
    (val_pcie_execute_tests P H 0 num_pe s).2 =
      val_print .AVS_PRINT_WARN "PCIe compliance is required  only from Level %d \n" 1 s := by
  unfold val_pcie_execute_tests
  simp only [if_true]
  refine ⟨trivial, ?_, trivial⟩
  rw [calls_during_append s _ [Event.val_print .AVS_PRINT_WARN
    "PCIe compliance is required  only from Level %d \n" 1] (by simp [val_print])]
  rfl

/-- C6: when one of the `MAX_TEST_SKIP_NUM` slots of the skip list, at whatever
position, holds `AVS_PCIE_TEST_NUM_BASE`, then for every level and `num_pe`
`val_pcie_execute_tests` returns `AVS_STATUS_SKIP` and calls none of
`p001_entry`, `p002_entry`, `p003_entry`. -/
theorem val_pcie_execute_tests_skip_all (P : Pal σ) (H : Includes) (level num_pe : Nat)
    (s : State σ)
    (hskip : ∃ i, i < H.MAX_TEST_SKIP_NUM ∧ s.g_skip_test_num i = H.AVS_PCIE_TEST_NUM_BASE) :
    (val_pcie_execute_tests P H level num_pe s).1 = H.AVS_STATUS_SKIP ∧
    test_calls (calls_during s (val_pcie_execute_tests P H level num_pe s).2) = [] := by
  by_cases hl : level = 0
  · subst hl
    exact ⟨(level_zero_skips P H num_pe s).1,
      (level_zero_skips P H num_pe s).2⟩
  · obtain ⟨i, hi, hbase⟩ := hskip
    have hscan : skip_scan H s.g_skip_test_num H.MAX_TEST_SKIP_NUM 0 = true :=
      (skip_scan_eq_true H s.g_skip_test_num H.MAX_TEST_SKIP_NUM 0).2
        ⟨i, Nat.zero_le i, by omega, hbase⟩
    unfold val_pcie_execute_tests
    simp only [hl, if_false, hscan, if_true]
    refine ⟨trivial, ?_⟩
    rw [calls_during_append s _ [Event.val_print .AVS_PRINT_TEST
      "\n USER Override - Skipping all PCIe tests \n" 0] (by simp [val_print])]
    rfl

/-- C6, witness: the identifier sits in the last of the three slots, at level
1. -/
theorem val_pcie_execute_tests_skip_all_witness :
    (∃ i, i < sample_includes.MAX_TEST_SKIP_NUM ∧
      (sample_state (some low_table) (fun i => if i = 2 then 400 else 0)).g_skip_test_num i =
        sample_includes.AVS_PCIE_TEST_NUM_BASE) ∧
    (val_pcie_execute_tests (stub_pal 0 0 0 0) sample_includes 1 4
        (sample_state (some low_table) (fun i => if i = 2 then 400 else 0))).1 =
      sample_includes.AVS_STATUS_SKIP ∧
    test_calls (calls_during (sample_state (some low_table) (fun i => if i = 2 then 400 else 0))
        (val_pcie_execute_tests (stub_pal 0 0 0 0) sample_includes 1 4
          (sample_state (some low_table) (fun i => if i = 2 then 400 else 0))).2) = [] :=
  ⟨⟨2, by decide, by decide⟩,
    val_pcie_execute_tests_skip_all (stub_pal 0 0 0 0) sample_includes 1 4
      (sample_state (some low_table) (fun i => if i = 2 then 400 else 0))
      ⟨2, by decide, by decide⟩⟩

/-- C7: for a level other than 0 and a skip list without
`AVS_PCIE_TEST_NUM_BASE`, `val_pcie_execute_tests` returns `AVS_STATUS_PASS`
exactly when `p001_entry` returns PASS and then `p002_entry` and `p003_entry`
both return PASS. -/
theorem val_pcie_execute_tests_pass_iff (P : Pal σ) (H : Includes) (level num_pe : Nat)
    (s : State σ) (hl : level ≠ 0)
    (hskip : ∀ i, i < H.MAX_TEST_SKIP_NUM → s.g_skip_test_num i ≠ H.AVS_PCIE_TEST_NUM_BASE) :
    (val_pcie_execute_tests P H level num_pe s).1 = AVS_STATUS_PASS ↔
      ((p001_entry P num_pe s).1 = AVS_STATUS_PASS ∧
       (p002_entry P num_pe (p001_entry P num_pe s).2).1 = AVS_STATUS_PASS ∧
       (p003_entry P num_pe (p002_entry P num_pe (p001_entry P num_pe s).2).2).1 =
         AVS_STATUS_PASS) := by
  by_cases hgate : (p001_entry P num_pe s).1 = AVS_STATUS_PASS
  · rw [(execute_tests_gate_open P H level num_pe s hl hskip hgate).1]
    unfold AVS_STATUS_PASS at hgate ⊢
    rw [lor_eq_zero]
    exact ⟨fun h => ⟨hgate, h⟩, fun h => h.2⟩
  · rw [execute_tests_gate_closed P H level num_pe s hl hskip hgate]
    exact ⟨fun h => absurd h hgate, fun h => absurd h.1 hgate⟩

/-- C7, witness: level 1, an empty skip list and three tests that pass. -/
theorem val_pcie_execute_tests_pass_iff_witness :
    (1 : Nat) ≠ 0 ∧
    (∀ i, i < sample_includes.MAX_TEST_SKIP_NUM →
      (sample_state (some low_table) empty_skip).g_skip_test_num i ≠
        sample_includes.AVS_PCIE_TEST_NUM_BASE) ∧
    (val_pcie_execute_tests (stub_pal 0 0 0 0) sample_includes 1 4
        (sample_state (some low_table) empty_skip)).1 = AVS_STATUS_PASS :=
  ⟨by decide, by decide,
    (val_pcie_execute_tests_pass_iff (stub_pal 0 0 0 0) sample_includes 1 4
      (sample_state (some low_table) empty_skip) (by decide) (by decide)).2
      ⟨by decide, by decide, by decide⟩⟩

/-! ## Theorems on `val_pcie_get_info` -/

/-- C8: on a created table with `num_entries = n` and for an index below `n`,
`val_pcie_get_info` returns, for the selectors `PCIE_INFO_ECAM`,
`PCIE_INFO_START_BUS`, `PCIE_INFO_END_BUS` and `PCIE_INFO_SEGMENT`, the fields
`ecam_base`, `start_bus_num`, `end_bus_num` and `segment_num` of the descriptor
at that index, and for `PCIE_INFO_NUM_ECAM` it returns `n`; in each case the
state is left as it was. -/
theorem val_pcie_get_info_fields (P : Pal σ) (s : State σ) (t : PCIE_INFO_TABLE)
    (index : Nat) (ht : s.g_pcie_info_table = some t) (hi : index < t.num_entries) :
    val_pcie_get_info P .PCIE_INFO_ECAM index s = ((t.block index).ecam_base, s) ∧
    val_pcie_get_info P .PCIE_INFO_START_BUS index s = ((t.block index).start_bus_num, s) ∧
    val_pcie_get_info P .PCIE_INFO_END_BUS index s = ((t.block index).end_bus_num, s) ∧
    val_pcie_get_info P .PCIE_INFO_SEGMENT index s = ((t.block index).segment_num, s) ∧
    val_pcie_get_info P .PCIE_INFO_NUM_ECAM index s = (t.num_entries, s) := by
  have hlt : ¬ (index ≥ t.num_entries) := by omega
  refine ⟨get_info_ecam P s t ht index hi, get_info_start_bus P s t ht index hi,
    get_info_end_bus P s t ht index hi, ?_, ?_⟩
  · unfold val_pcie_get_info
    rw [ht]
    simp [hlt]
  · unfold val_pcie_get_info
    rw [ht]
    simp [hlt]

/-- C8, witness: entry 1 of a two-entry table. -/
theorem val_pcie_get_info_fields_witness :
    (sample_state (some (uniform_table 2 ⟨0x40000000, 5, 16, 31⟩)) empty_skip).g_pcie_info_table =
      some (uniform_table 2 ⟨0x40000000, 5, 16, 31⟩) ∧
    1 < (uniform_table 2 ⟨0x40000000, 5, 16, 31⟩).num_entries ∧
    (val_pcie_get_info (stub_pal 0 0 0 0) .PCIE_INFO_SEGMENT 1
      (sample_state (some (uniform_table 2 ⟨0x40000000, 5, 16, 31⟩)) empty_skip)).1 = 5 ∧
    (val_pcie_get_info (stub_pal 0 0 0 0) .PCIE_INFO_NUM_ECAM 1
      (sample_state (some (uniform_table 2 ⟨0x40000000, 5, 16, 31⟩)) empty_skip)).1 = 2 :=
  ⟨rfl, by decide,
    congrArg Prod.fst (val_pcie_get_info_fields (stub_pal 0 0 0 0)
      (sample_state (some (uniform_table 2 ⟨0x40000000, 5, 16, 31⟩)) empty_skip)
      (uniform_table 2 ⟨0x40000000, 5, 16, 31⟩) 1 rfl (by decide)).2.2.2.1,
    congrArg Prod.fst (val_pcie_get_info_fields (stub_pal 0 0 0 0)
      (sample_state (some (uniform_table 2 ⟨0x40000000, 5, 16, 31⟩)) empty_skip)
      (uniform_table 2 ⟨0x40000000, 5, 16, 31⟩) 1 rfl (by decide)).2.2.2.2⟩

/-- C9: on a created table with `num_entries = n` and for an index at or above
`n`, `val_pcie_get_info` returns 0 for every selector, `PCIE_INFO_NUM_ECAM` and
`PCIE_INFO_MCFG_ECAM` included; the platform state is untouched and the only
call made is the error message "Invalid index", which is made exactly when `n`
is not 0, so on an empty table nothing is logged. -/
theorem val_pcie_get_info_out_of_range (P : Pal σ) (type : PCIE_INFO_e) (s : State σ)
    (t : PCIE_INFO_TABLE) (index : Nat) (ht : s.g_pcie_info_table = some t)
    (hi : index ≥ t.num_entries) :
    (val_pcie_get_info P type index s).1 = 0 ∧
    (val_pcie_get_info P type index s).2.pal = s.pal ∧
    calls_during s (val_pcie_get_info P type index s).2 =
      (if t.num_entries ≠ 0 then
        [Event.val_print .AVS_PRINT_ERR "Invalid index %d > num of entries \n" index]
       else []) ∧
    (error_logs (calls_during s (val_pcie_get_info P type index s).2) ≠ [] ↔
      t.num_entries ≠ 0) := by
  have hrun : val_pcie_get_info P type index s =
      (0, if t.num_entries ≠ 0 then
        val_print .AVS_PRINT_ERR "Invalid index %d > num of entries \n" index s else s) := by
    unfold val_pcie_get_info
    rw [ht]
    simp only [hi, if_true]
    split <;> rfl
  rw [hrun]
  by_cases hn : t.num_entries = 0
  · simp only [hn, ne_eq, not_true_eq_false, if_false, calls_during_self]
    exact ⟨trivial, trivial, trivial, by simp [error_logs]⟩
  · have hcalls : calls_during s
        (val_print .AVS_PRINT_ERR "Invalid index %d > num of entries \n" index s) =
        [Event.val_print .AVS_PRINT_ERR "Invalid index %d > num of entries \n" index] :=
      calls_during_append s _ _ (by simp [val_print])
    simp only [ne_eq, hn, not_false_eq_true, if_true, hcalls]
    refine ⟨trivial, by simp [val_print], trivial, ?_⟩
    simp [error_logs, Event.is_error]

/-- C9, witness: index 1 of a one-entry table, with selector
`PCIE_INFO_MCFG_ECAM`. -/
theorem val_pcie_get_info_out_of_range_witness :
    (sample_state (some low_table) empty_skip).g_pcie_info_table = some low_table ∧
    1 ≥ low_table.num_entries ∧
    (val_pcie_get_info (stub_pal 0x80000000 0 0 0) .PCIE_INFO_MCFG_ECAM 1
      (sample_state (some low_table) empty_skip)).1 = 0 ∧
    (error_logs (calls_during (sample_state (some low_table) empty_skip)
      (val_pcie_get_info (stub_pal 0x80000000 0 0 0) .PCIE_INFO_MCFG_ECAM 1
        (sample_state (some low_table) empty_skip)).2) ≠ [] ↔ low_table.num_entries ≠ 0) :=
  ⟨rfl, by decide,
    (val_pcie_get_info_out_of_range (stub_pal 0x80000000 0 0 0) .PCIE_INFO_MCFG_ECAM
      (sample_state (some low_table) empty_skip) low_table 1 rfl (by decide)).1,
    (val_pcie_get_info_out_of_range (stub_pal 0x80000000 0 0 0) .PCIE_INFO_MCFG_ECAM
      (sample_state (some low_table) empty_skip) low_table 1 rfl (by decide)).2.2.2⟩

/-! ## Further theorems on the configuration-space accessors -/

/-- C11: on a created, well-typed table and for a valid bdf, if the first
entry whose bus range contains the bus has `ecam_base` 0, then with fuel for the
scan `val_pcie_read_cfg` returns 0 and `val_pcie_write_cfg` returns, each after
the error message "ECAM Base is zero" and without any MMIO call, whatever the
entries after that one hold. -/
theorem val_pcie_cfg_zero_base (P : Pal σ) (H : Includes) (fuel bdf offset data : Nat)
    (s : State σ) (t : PCIE_INFO_TABLE) (k : Nat)
    (ht : s.g_pcie_info_table = some t) (hwf : t.wf) (hfuel : t.num_entries ≤ fuel)
    (hb : bdf_bus H bdf < 256) (hd : bdf_dev H bdf < 32) (hf : bdf_func H bdf < 8)
    (hk : k < t.num_entries) (hin : t.contains_bus k (bdf_bus H bdf))
    (hfirst : ∀ j, j < k → ¬ t.contains_bus j (bdf_bus H bdf))
    (hbase : (t.block k).ecam_base = 0) :
    val_pcie_read_cfg P H fuel bdf offset s =
      some (0, val_print .AVS_PRINT_ERR "\n    Read PCIe_CFG: ECAM Base is zero " 0 s) ∧
    (val_pcie_read_cfg P H fuel bdf offset s).map
        (fun r => (r.1, mmio_calls (calls_during s r.2))) = some (0, []) ∧
    val_pcie_write_cfg P H fuel bdf offset data s =
      some (val_print .AVS_PRINT_ERR "\n    Read PCIe_CFG: ECAM Base is zero " 0 s) ∧
    (val_pcie_write_cfg P H fuel bdf offset data s).map
        (fun s1 => mmio_calls (calls_during s s1)) = some [] := by
  have hscan := cfg_scan_first P (bdf_bus H bdf) s t ht hwf.1 k hk hin fuel 0
    (Nat.zero_le k) (by omega) (fun j _ hjk => hfirst j hjk)
  rw [if_pos hbase] at hscan
  have hr := read_cfg_past_guards P H fuel bdf offset s t ht hb hd hf
  have hw := write_cfg_past_guards P H fuel bdf offset data s t ht hb hd hf
  rw [hscan] at hr hw
  refine ⟨hr, ?_, hw, ?_⟩
  · rw [hr, Option.map_some', mmio_calls_val_print]
  · rw [hw, Option.map_some', mmio_calls_val_print]

/-- C11, witness: entry 0 covers the bus with base 0 and entry 1 covers it too
with base `0x40000000`; bdf `0x010203`, offset 4. -/
theorem val_pcie_cfg_zero_base_witness :
    (sample_state (some shadowed_table) empty_skip).g_pcie_info_table = some shadowed_table ∧
    shadowed_table.wf ∧ shadowed_table.num_entries ≤ 2 ∧
    bdf_bus sample_includes 0x010203 < 256 ∧ bdf_dev sample_includes 0x010203 < 32 ∧
    bdf_func sample_includes 0x010203 < 8 ∧ 0 < shadowed_table.num_entries ∧
    shadowed_table.contains_bus 0 (bdf_bus sample_includes 0x010203) ∧
    (shadowed_table.block 0).ecam_base = 0 ∧
    shadowed_table.contains_bus 1 (bdf_bus sample_includes 0x010203) ∧
    (shadowed_table.block 1).ecam_base ≠ 0 ∧
    (val_pcie_read_cfg (stub_pal 0 0 0 0) sample_includes 2 0x010203 4
        (sample_state (some shadowed_table) empty_skip)).map
        (fun r => (r.1,
          mmio_calls (calls_during (sample_state (some shadowed_table) empty_skip) r.2))) =
      some (0, []) ∧
    (val_pcie_write_cfg (stub_pal 0 0 0 0) sample_includes 2 0x010203 4 7
        (sample_state (some shadowed_table) empty_skip)).map
        (fun s1 => mmio_calls (calls_during (sample_state (some shadowed_table) empty_skip) s1)) =
      some [] :=
  ⟨rfl, by decide, by decide, by decide, by decide, by decide, by decide, by decide, by decide,
    by decide, by decide,
    (val_pcie_cfg_zero_base (stub_pal 0 0 0 0) sample_includes 2 0x010203 4 7
      (sample_state (some shadowed_table) empty_skip) shadowed_table 0 rfl (by decide)
      (by decide) (by decide) (by decide) (by decide) (by decide) (by decide)
      (fun j hj => absurd hj (Nat.not_lt_zero j)) (by decide)).2.1,
    (val_pcie_cfg_zero_base (stub_pal 0 0 0 0) sample_includes 2 0x010203 4 7
      (sample_state (some shadowed_table) empty_skip) shadowed_table 0 rfl (by decide)
      (by decide) (by decide) (by decide) (by decide) (by decide) (by decide)
      (fun j hj => absurd hj (Nat.not_lt_zero j)) (by decide)).2.2.2⟩

/-- C16: on a created, well-typed table (an empty one included) and for a valid
bdf and a 32-bit offset, if no entry has a bus range that contains the bus then
`ecam_base` is still 0 after the scan and the access is made all the same:
`val_pcie_read_cfg` calls `pal_mmio_read` exactly once, at
`bus*32*8*4096 + device*8*4096 + function + offset`, and returns what it yields,
and `val_pcie_write_cfg` calls `pal_mmio_write` exactly once, at that address
with the caller's data. -/
theorem val_pcie_cfg_no_region (P : Pal σ) (H : Includes) (fuel bdf offset data : Nat)
    (s : State σ) (t : PCIE_INFO_TABLE)
    (ht : s.g_pcie_info_table = some t) (hwf : t.wf) (hfuel : t.num_entries ≤ fuel)
    (hb : bdf_bus H bdf < 256) (hd : bdf_dev H bdf < 32) (hf : bdf_func H bdf < 8)
    (hoff : offset < 2 ^ 32)
    (hnone : ∀ j, j < t.num_entries → ¬ t.contains_bus j (bdf_bus H bdf)) :
    cfg_scan P (bdf_bus H bdf) fuel 0 s = some (some 0, s) ∧
    (val_pcie_read_cfg P H fuel bdf offset s).map
        (fun r => (r.1, mmio_calls (calls_during s r.2))) =
      some ((P.mmio_read
          (bdf_bus H bdf * 32 * 8 * 4096 + bdf_dev H bdf * 8 * 4096 + bdf_func H bdf + offset)
          s.pal).1 % 2 ^ 32,
        [Event.pal_mmio_read
          (bdf_bus H bdf * 32 * 8 * 4096 + bdf_dev H bdf * 8 * 4096 + bdf_func H bdf
            + offset)]) ∧
    val_pcie_write_cfg P H fuel bdf offset data s =
      some (pal_mmio_write P
        (bdf_bus H bdf * 32 * 8 * 4096 + bdf_dev H bdf * 8 * 4096 + bdf_func H bdf + offset)
        data s) ∧
    (val_pcie_write_cfg P H fuel bdf offset data s).map
        (fun s1 => mmio_calls (calls_during s s1)) =
      some [Event.pal_mmio_write
        (bdf_bus H bdf * 32 * 8 * 4096 + bdf_dev H bdf * 8 * 4096 + bdf_func H bdf + offset)
        data] := by
  have hscan := cfg_scan_none P (bdf_bus H bdf) s t ht hwf.1 fuel 0 (by omega)
    (fun j _ hjn => hnone j hjn)
  have haddr : cfg_target 0 (cfg_addr (bdf_bus H bdf) (bdf_dev H bdf) (bdf_func H bdf))
      offset =
      bdf_bus H bdf * 32 * 8 * 4096 + bdf_dev H bdf * 8 * 4096 + bdf_func H bdf + offset := by
    rw [cfg_addr_of_valid _ _ _ hb hd hf]
    unfold cfg_target
    rw [Nat.zero_add]
    apply Nat.mod_eq_of_lt
    omega
  have hr := read_cfg_past_guards P H fuel bdf offset s t ht hb hd hf
  have hw := write_cfg_past_guards P H fuel bdf offset data s t ht hb hd hf
  rw [hscan] at hr hw
  simp only [haddr] at hr hw
  refine ⟨hscan, ?_, hw, ?_⟩
  · rw [hr, Option.map_some', mmio_calls_val_print_read]
    rfl
  · rw [hw, Option.map_some',
      calls_during_append s _ [Event.pal_mmio_write
        (bdf_bus H bdf * 32 * 8 * 4096 + bdf_dev H bdf * 8 * 4096 + bdf_func H bdf + offset)
        data] (by simp [pal_mmio_write])]
    rfl

/-- C16, witness: the only region covers buses 16 to 31 and the bdf `0x010203`
is on bus 1. -/
theorem val_pcie_cfg_no_region_witness :
    (sample_state (some narrow_table) empty_skip).g_pcie_info_table = some narrow_table ∧
    narrow_table.wf ∧ narrow_table.num_entries ≤ 1 ∧
    bdf_bus sample_includes 0x010203 < 256 ∧ bdf_dev sample_includes 0x010203 < 32 ∧
    bdf_func sample_includes 0x010203 < 8 ∧ (4 : Nat) < 2 ^ 32 ∧
    (∀ j, j < narrow_table.num_entries →
      ¬ narrow_table.contains_bus j (bdf_bus sample_includes 0x010203)) ∧
    (val_pcie_write_cfg (stub_pal 0 0 0 0) sample_includes 1 0x010203 4 7
        (sample_state (some narrow_table) empty_skip)).map
        (fun s1 => mmio_calls (calls_during (sample_state (some narrow_table) empty_skip) s1)) =
      some [Event.pal_mmio_write
        (bdf_bus sample_includes 0x010203 * 32 * 8 * 4096
          + bdf_dev sample_includes 0x010203 * 8 * 4096
          + bdf_func sample_includes 0x010203 + 4) 7] :=
  ⟨rfl, by decide, by decide, by decide, by decide, by decide, by decide, by decide,
    (val_pcie_cfg_no_region (stub_pal 0 0 0 0) sample_includes 1 0x010203 4 7
      (sample_state (some narrow_table) empty_skip) narrow_table rfl (by decide) (by decide)
      (by decide) (by decide) (by decide) (by decide) (by decide)).2.2.2⟩

/-- C19: for a bdf that passes the range check of the accessors (bus < 256,
device < 32, function < 8), the value `bus*32*8*4096 + device*8*4096 + function`
is below `2^28`, and the 32-bit `cfg_addr` equals it: the computation does not
wrap. -/
theorem cfg_addr_no_wrap (H : Includes) (bdf : Nat)
    (hcheck : ¬ (bdf_bus H bdf ≥ PCIE_MAX_BUS ∨ bdf_dev H bdf ≥ PCIE_MAX_DEV ∨
      bdf_func H bdf ≥ PCIE_MAX_FUNC)) :
    bdf_bus H bdf * 32 * 8 * 4096 + bdf_dev H bdf * 8 * 4096 + bdf_func H bdf < 2 ^ 28 ∧
    cfg_addr (bdf_bus H bdf) (bdf_dev H bdf) (bdf_func H bdf) =
      bdf_bus H bdf * 32 * 8 * 4096 + bdf_dev H bdf * 8 * 4096 + bdf_func H bdf := by
  rw [range_check_iff] at hcheck
  have hb : bdf_bus H bdf < 256 := by omega
  have hd : bdf_dev H bdf < 32 := by omega
  have hf : bdf_func H bdf < 8 := by omega
  refine ⟨by omega, cfg_addr_of_valid _ _ _ hb hd hf⟩

/-- C19, witness: the largest valid bdf, `0xFF1F07` (bus 255, device 31,
function 7). -/
theorem cfg_addr_no_wrap_witness :
    ¬ (bdf_bus sample_includes 0xFF1F07 ≥ PCIE_MAX_BUS ∨
      bdf_dev sample_includes 0xFF1F07 ≥ PCIE_MAX_DEV ∨
      bdf_func sample_includes 0xFF1F07 ≥ PCIE_MAX_FUNC) ∧
    bdf_bus sample_includes 0xFF1F07 * 32 * 8 * 4096
      + bdf_dev sample_includes 0xFF1F07 * 8 * 4096 + bdf_func sample_includes 0xFF1F07
      < 2 ^ 28 ∧
    cfg_addr (bdf_bus sample_includes 0xFF1F07) (bdf_dev sample_includes 0xFF1F07)
        (bdf_func sample_includes 0xFF1F07) =
      bdf_bus sample_includes 0xFF1F07 * 32 * 8 * 4096
        + bdf_dev sample_includes 0xFF1F07 * 8 * 4096 + bdf_func sample_includes 0xFF1F07 :=
  ⟨by decide, cfg_addr_no_wrap sample_includes 0xFF1F07 (by decide)⟩

/-- C14: on a created table with `num_entries = n` and for an index below `n`,
`val_pcie_get_info(PCIE_INFO_MCFG_ECAM, index)` is the call
`pal_pcie_get_mcfg_ecam()`: that is the only call made, its 64-bit value is
returned, and the value is the same for every table and every in-range index. -/
theorem val_pcie_get_info_mcfg_ecam (P : Pal σ) (s : State σ) (t : PCIE_INFO_TABLE)
    (index : Nat) (ht : s.g_pcie_info_table = some t) (hi : index < t.num_entries) :
    val_pcie_get_info P .PCIE_INFO_MCFG_ECAM index s = pal_pcie_get_mcfg_ecam P s ∧
    (val_pcie_get_info P .PCIE_INFO_MCFG_ECAM index s).1 =
      (P.get_mcfg_ecam s.pal).1 % 2 ^ 64 ∧
    calls_during s (val_pcie_get_info P .PCIE_INFO_MCFG_ECAM index s).2 =
      [Event.pal_pcie_get_mcfg_ecam] ∧
    ∀ (t1 : PCIE_INFO_TABLE) (index1 : Nat), index1 < t1.num_entries →
      (val_pcie_get_info P .PCIE_INFO_MCFG_ECAM index1
        { s with g_pcie_info_table := some t1 }).1 =
      (val_pcie_get_info P .PCIE_INFO_MCFG_ECAM index s).1 := by
  have hrun : ∀ (s0 : State σ) (t0 : PCIE_INFO_TABLE) (i0 : Nat),
      s0.g_pcie_info_table = some t0 → i0 < t0.num_entries →
      val_pcie_get_info P .PCIE_INFO_MCFG_ECAM i0 s0 = pal_pcie_get_mcfg_ecam P s0 := by
    intro s0 t0 i0 h0 hlt
    have hge : ¬ (i0 ≥ t0.num_entries) := by omega
    unfold val_pcie_get_info
    rw [h0]
    simp [hge]
  refine ⟨hrun s t index ht hi, ?_, ?_, ?_⟩
  · rw [hrun s t index ht hi]
    rfl
  · rw [hrun s t index ht hi]
    exact calls_during_append s _ [Event.pal_pcie_get_mcfg_ecam]
      (by simp [pal_pcie_get_mcfg_ecam])
  · intro t1 index1 h1
    rw [hrun s t index ht hi, hrun { s with g_pcie_info_table := some t1 } t1 index1 rfl h1]
    rfl

/-- C14, witness: indexes 0 and 1 of a two-entry table, on a platform whose
MCFG accessor returns `0x80000000`. -/
theorem val_pcie_get_info_mcfg_ecam_witness :
    (sample_state (some shadowed_table) empty_skip).g_pcie_info_table = some shadowed_table ∧
    1 < shadowed_table.num_entries ∧
    (val_pcie_get_info (stub_pal 0x80000000 0 0 0) .PCIE_INFO_MCFG_ECAM 1
      (sample_state (some shadowed_table) empty_skip)).1 =
      ((stub_pal 0x80000000 0 0 0).get_mcfg_ecam
        (sample_state (some shadowed_table) empty_skip).pal).1 % 2 ^ 64 :=
  ⟨rfl, by decide,
    (val_pcie_get_info_mcfg_ecam (stub_pal 0x80000000 0 0 0)
      (sample_state (some shadowed_table) empty_skip) shadowed_table 1 rfl (by decide)).2.1⟩

/-- C17, the code at a failing input: with one region at base `0x40000000`, the
read of function 0 of bus 1, device 2 (bdf `0x010200`) at offset 4 and the read
of function 4 of the same device (bdf `0x010204`) at offset 0 are issued at the
same address `0x40110004`, and so are the two writes: `cfg_addr` adds the
function number as a byte offset. -/
theorem val_pcie_cfg_function_overlap :
    bdf_bus sample_includes 0x010200 = 1 ∧ bdf_dev sample_includes 0x010200 = 2 ∧
    bdf_func sample_includes 0x010200 = 0 ∧
    bdf_bus sample_includes 0x010204 = 1 ∧ bdf_dev sample_includes 0x010204 = 2 ∧
    bdf_func sample_includes 0x010204 = 4 ∧
    cfg_addr 1 2 0 + 4 = cfg_addr 1 2 4 + 0 ∧
    (val_pcie_read_cfg (stub_pal 0 0 0 0) sample_includes 1 0x010200 4
        (sample_state (some low_table) empty_skip)).map
        (fun r => mmio_calls (calls_during (sample_state (some low_table) empty_skip) r.2)) =
      some [Event.pal_mmio_read 0x40110004] ∧
    (val_pcie_read_cfg (stub_pal 0 0 0 0) sample_includes 1 0x010204 0
        (sample_state (some low_table) empty_skip)).map
        (fun r => mmio_calls (calls_during (sample_state (some low_table) empty_skip) r.2)) =
      some [Event.pal_mmio_read 0x40110004] ∧
    (val_pcie_write_cfg (stub_pal 0 0 0 0) sample_includes 1 0x010200 4 7
        (sample_state (some low_table) empty_skip)).map
        (fun s1 => mmio_calls (calls_during (sample_state (some low_table) empty_skip) s1)) =
      some [Event.pal_mmio_write 0x40110004 7] ∧
    (val_pcie_write_cfg (stub_pal 0 0 0 0) sample_includes 1 0x010204 0 7
        (sample_state (some low_table) empty_skip)).map
        (fun s1 => mmio_calls (calls_during (sample_state (some low_table) empty_skip) s1)) =
      some [Event.pal_mmio_write 0x40110004 7] := by
  refine ⟨by decide, by decide, by decide, by decide, by decide, by decide, by decide,
    by decide, by decide, by decide, by decide⟩

/-! ## The two accessors resolve alike -/

theorem mmio_quiet_refl (s : State σ) : mmio_quiet s s :=
  ⟨[], by simp, rfl⟩

theorem mmio_quiet_trans (s s1 s2 : State σ) (h1 : mmio_quiet s s1) (h2 : mmio_quiet s1 s2) :
    mmio_quiet s s2 := by
  obtain ⟨l1, e1, q1⟩ := h1
  obtain ⟨l2, e2, q2⟩ := h2
  refine ⟨l1 ++ l2, by rw [e2, e1, List.append_assoc], ?_⟩
  unfold mmio_calls at q1 q2 ⊢
  rw [List.filter_append, q1, q2]
  rfl

theorem mmio_quiet_val_print (level : PrintLevel) (msg : String) (data : Nat) (s : State σ) :
    mmio_quiet s (val_print level msg data s) :=
  ⟨[Event.val_print level msg data], rfl, rfl⟩

/-- A call of `val_pcie_get_info` makes no MMIO call, whatever the state. -/
theorem get_info_quiet (P : Pal σ) (type : PCIE_INFO_e) (index : Nat) (s : State σ) :
    mmio_quiet s (val_pcie_get_info P type index s).2 := by
  unfold val_pcie_get_info
  split
  · exact mmio_quiet_val_print _ _ _ s
  · split
    · split
      · exact mmio_quiet_val_print _ _ _ s
      · exact mmio_quiet_refl s
    · split
      · exact mmio_quiet_refl s
      · exact ⟨[Event.pal_pcie_get_mcfg_ecam], rfl, rfl⟩
      · exact mmio_quiet_refl s
      · exact mmio_quiet_refl s
      · exact mmio_quiet_refl s
      · exact mmio_quiet_refl s
      · exact mmio_quiet_val_print _ _ _ s

/-- The scan makes no MMIO call, whatever the state and the fuel. -/
theorem cfg_scan_quiet (P : Pal σ) (bus : Nat) :
    ∀ (fuel i : Nat) (s : State σ) (r : Option Nat × State σ),
      cfg_scan P bus fuel i s = some r → mmio_quiet s r.2 := by
  intro fuel
  induction fuel with
  | zero =>
    intro i s r h
    rw [cfg_scan] at h
    split at h
    · exact absurd h (by simp)
    · rw [← Option.some.inj h]
      exact get_info_quiet P _ _ s
  | succ fuel ih =>
    intro i s r h
    rw [cfg_scan] at h
    simp only [] at h
    have q1 := get_info_quiet P .PCIE_INFO_NUM_ECAM 0 s
    have q2 := get_info_quiet P .PCIE_INFO_START_BUS i
      (val_pcie_get_info P .PCIE_INFO_NUM_ECAM 0 s).2
    have q3 := get_info_quiet P .PCIE_INFO_END_BUS i
      (val_pcie_get_info P .PCIE_INFO_START_BUS i
        (val_pcie_get_info P .PCIE_INFO_NUM_ECAM 0 s).2).2
    have q4 := get_info_quiet P .PCIE_INFO_ECAM i
      (val_pcie_get_info P .PCIE_INFO_END_BUS i
        (val_pcie_get_info P .PCIE_INFO_START_BUS i
          (val_pcie_get_info P .PCIE_INFO_NUM_ECAM 0 s).2).2).2
    have q12 := mmio_quiet_trans _ _ _ q1 q2
    have q13 := mmio_quiet_trans _ _ _ q12 q3
    have q14 := mmio_quiet_trans _ _ _ q13 q4
    split at h
    · split at h
      · split at h
        · split at h
          · rw [← Option.some.inj h]
            exact mmio_quiet_trans _ _ _ q14 (mmio_quiet_val_print _ _ _ _)
          · rw [← Option.some.inj h]
            exact q14
        · exact mmio_quiet_trans _ _ _ q13 (ih _ _ r h)
      · exact mmio_quiet_trans _ _ _ q12 (ih _ _ r h)
    · rw [← Option.some.inj h]
      exact q1

theorem mmio_calls_of_quiet (s s1 : State σ) (h : mmio_quiet s s1) :
    mmio_calls (calls_during s s1) = [] := by
  obtain ⟨l, e, q⟩ := h
  rw [calls_during_append s s1 l e]
  exact q

theorem mmio_calls_after_quiet (s s1 s2 : State σ) (l2 : List Event) (h : mmio_quiet s s1)
    (e2 : s2.trace = s1.trace ++ l2) :
    mmio_calls (calls_during s s2) = mmio_calls l2 := by
  obtain ⟨l, e, q⟩ := h
  rw [calls_during_append s s2 (l ++ l2) (by rw [e2, e, List.append_assoc])]
  unfold mmio_calls at q ⊢
  rw [List.filter_append, q]
  rfl

/-- C18: for every state (table created or not), fuel, bdf, offset and data,
`val_pcie_write_cfg` and `val_pcie_read_cfg` resolve alike: either both run out
of fuel in the scan, or neither makes an MMIO call, or the read makes exactly
one MMIO call, `pal_mmio_read` at an address `A`, and the write makes exactly
one, `pal_mmio_write` at the same `A` with the caller's data. -/
theorem val_pcie_cfg_resolve_alike (P : Pal σ) (H : Includes) (fuel bdf offset data : Nat)
    (s : State σ) :
    (val_pcie_read_cfg P H fuel bdf offset s = none ∧
      val_pcie_write_cfg P H fuel bdf offset data s = none) ∨
    ((val_pcie_read_cfg P H fuel bdf offset s).map
        (fun r => mmio_calls (calls_during s r.2)) = some [] ∧
      (val_pcie_write_cfg P H fuel bdf offset data s).map
        (fun s1 => mmio_calls (calls_during s s1)) = some []) ∨
    (∃ A, (val_pcie_read_cfg P H fuel bdf offset s).map
        (fun r => mmio_calls (calls_during s r.2)) = some [Event.pal_mmio_read A] ∧
      (val_pcie_write_cfg P H fuel bdf offset data s).map
        (fun s1 => mmio_calls (calls_during s s1)) = some [Event.pal_mmio_write A data]) := by
  by_cases hg : bdf_bus H bdf ≥ PCIE_MAX_BUS ∨ bdf_dev H bdf ≥ PCIE_MAX_DEV ∨
      bdf_func H bdf ≥ PCIE_MAX_FUNC
  · right; left
    refine ⟨?_, invalid_bdf_write_no_mmio P H fuel bdf offset data s hg⟩
    have h := invalid_bdf_read_no_mmio P H fuel bdf offset s hg
    unfold val_pcie_read_cfg at h ⊢
    simp only [hg, if_true, Option.map_some'] at h ⊢
    rw [mmio_calls_val_print]
  · cases ht : s.g_pcie_info_table with
    | none =>
      right; left
      unfold val_pcie_read_cfg val_pcie_write_cfg
      simp only [hg, if_false, ht, Option.isNone_none, if_true, Option.map_some',
        mmio_calls_val_print, and_self]
    | some t =>
      have hv := hg
      rw [range_check_iff] at hv
      have hr := read_cfg_past_guards P H fuel bdf offset s t ht (by omega) (by omega)
        (by omega)
      have hw := write_cfg_past_guards P H fuel bdf offset data s t ht (by omega) (by omega)
        (by omega)
      cases hscan : cfg_scan P (bdf_bus H bdf) fuel 0 s with
      | none =>
        left
        rw [hscan] at hr hw
        exact ⟨hr, hw⟩
      | some r =>
        have hq := cfg_scan_quiet P (bdf_bus H bdf) fuel 0 s r hscan
        obtain ⟨e, s1⟩ := r
        rw [hscan] at hr hw
        cases e with
        | none =>
          right; left
          simp only [] at hr hw
          rw [hr, hw, Option.map_some', Option.map_some', mmio_calls_of_quiet s s1 hq]
          exact ⟨rfl, rfl⟩
        | some ecam_base =>
          right; right
          simp only [] at hr hw
          refine ⟨cfg_target ecam_base
            (cfg_addr (bdf_bus H bdf) (bdf_dev H bdf) (bdf_func H bdf)) offset, ?_, ?_⟩
          · rw [hr, Option.map_some']
            rw [mmio_calls_after_quiet s s1 _
              [Event.val_print .AVS_PRINT_INFO "   calculated config address is %x \n"
                (cfg_target ecam_base
                  (cfg_addr (bdf_bus H bdf) (bdf_dev H bdf) (bdf_func H bdf)) offset),
               Event.pal_mmio_read (cfg_target ecam_base
                  (cfg_addr (bdf_bus H bdf) (bdf_dev H bdf) (bdf_func H bdf)) offset)] hq
              (by simp [pal_mmio_read, val_print])]
            rfl
          · rw [hw, Option.map_some']
            rw [mmio_calls_after_quiet s s1 _
              [Event.pal_mmio_write (cfg_target ecam_base
                  (cfg_addr (bdf_bus H bdf) (bdf_dev H bdf) (bdf_func H bdf)) offset) data] hq
              (by simp [pal_mmio_write])]
            rfl

/-! ## First match and round trip -/

/-- With entry `k` the first whose range contains the bus, `val_pcie_read_cfg`
returns 0 on a zero base and otherwise reads at the address formed with the
base of entry `k`. -/
theorem read_cfg_first (P : Pal σ) (H : Includes) (fuel bdf offset : Nat)
    (s : State σ) (t : PCIE_INFO_TABLE) (k : Nat)
    (ht : s.g_pcie_info_table = some t) (hn : t.num_entries < 2 ^ 32)
    (hfuel : t.num_entries ≤ fuel)
    (hb : bdf_bus H bdf < 256) (hd : bdf_dev H bdf < 32) (hf : bdf_func H bdf < 8)
    (hk : k < t.num_entries) (hin : t.contains_bus k (bdf_bus H bdf))
    (hfirst : ∀ j, j < k → ¬ t.contains_bus j (bdf_bus H bdf)) :
    val_pcie_read_cfg P H fuel bdf offset s =
      if (t.block k).ecam_base = 0 then
        some (0, val_print .AVS_PRINT_ERR "\n    Read PCIe_CFG: ECAM Base is zero " 0 s)
      else
        some (pal_mmio_read P
          (cfg_target (t.block k).ecam_base
            (cfg_addr (bdf_bus H bdf) (bdf_dev H bdf) (bdf_func H bdf)) offset)
          (val_print .AVS_PRINT_INFO "   calculated config address is %x \n"
            (cfg_target (t.block k).ecam_base
              (cfg_addr (bdf_bus H bdf) (bdf_dev H bdf) (bdf_func H bdf)) offset) s)) := by
  have hscan := cfg_scan_first P (bdf_bus H bdf) s t ht hn k hk hin fuel 0
    (Nat.zero_le k) (by omega) (fun j _ hjk => hfirst j hjk)
  have hr := read_cfg_past_guards P H fuel bdf offset s t ht hb hd hf
  by_cases hz : (t.block k).ecam_base = 0
  · rw [if_pos hz] at hscan ⊢
    rw [hscan] at hr
    exact hr
  · rw [if_neg hz] at hscan ⊢
    rw [hscan] at hr
    exact hr

/-- With entry `k` the first whose range contains the bus, `val_pcie_write_cfg`
returns without access on a zero base and otherwise writes at the address
formed with the base of entry `k`. -/
theorem write_cfg_first (P : Pal σ) (H : Includes) (fuel bdf offset data : Nat)
    (s : State σ) (t : PCIE_INFO_TABLE) (k : Nat)
    (ht : s.g_pcie_info_table = some t) (hn : t.num_entries < 2 ^ 32)
    (hfuel : t.num_entries ≤ fuel)
    (hb : bdf_bus H bdf < 256) (hd : bdf_dev H bdf < 32) (hf : bdf_func H bdf < 8)
    (hk : k < t.num_entries) (hin : t.contains_bus k (bdf_bus H bdf))
    (hfirst : ∀ j, j < k → ¬ t.contains_bus j (bdf_bus H bdf)) :
    val_pcie_write_cfg P H fuel bdf offset data s =
      if (t.block k).ecam_base = 0 then
        some (val_print .AVS_PRINT_ERR "\n    Read PCIe_CFG: ECAM Base is zero " 0 s)
      else
        some (pal_mmio_write P
          (cfg_target (t.block k).ecam_base
            (cfg_addr (bdf_bus H bdf) (bdf_dev H bdf) (bdf_func H bdf)) offset) data s) := by
  have hscan := cfg_scan_first P (bdf_bus H bdf) s t ht hn k hk hin fuel 0
    (Nat.zero_le k) (by omega) (fun j _ hjk => hfirst j hjk)
  have hw := write_cfg_past_guards P H fuel bdf offset data s t ht hb hd hf
  by_cases hz : (t.block k).ecam_base = 0
  · rw [if_pos hz] at hscan ⊢
    rw [hscan] at hw
    exact hw
  · rw [if_neg hz] at hscan ⊢
    rw [hscan] at hw
    exact hw

theorem calls_during_val_print (level : PrintLevel) (msg : String) (data : Nat)
    (s : State σ) :
    calls_during s (val_print level msg data s) = [Event.val_print level msg data] :=
  calls_during_append s _ _ rfl

theorem calls_during_print_read (P : Pal σ) (level : PrintLevel) (msg : String)
    (data addr : Nat) (s : State σ) :
    calls_during s (pal_mmio_read P addr (val_print level msg data s)).2 =
      [Event.val_print level msg data, Event.pal_mmio_read addr] :=
  calls_during_append s _ _ (by simp [pal_mmio_read, val_print])

theorem calls_during_write (P : Pal σ) (addr data : Nat) (s : State σ) :
    calls_during s (pal_mmio_write P addr data s) = [Event.pal_mmio_write addr data] :=
  calls_during_append s _ _ (by simp [pal_mmio_write])

/-- C12: on a created, well-typed table and for a valid bdf, let entry `k` be
the entry of least index whose bus range contains the bus. Then the accessors
use the `ecam_base` of entry `k`: a non-zero base gives exactly one MMIO call,
at the address formed with that base. And for every table `t1` with the same
count that agrees with the table on the entries up to `k`, whatever its entries
at higher indexes hold, `val_pcie_read_cfg` returns the same value after the
same calls and with the same platform state, and so does `val_pcie_write_cfg`. -/
theorem val_pcie_cfg_first_match (P : Pal σ) (H : Includes) (fuel bdf offset data : Nat)
    (s : State σ) (t t1 : PCIE_INFO_TABLE) (k : Nat)
    (ht : s.g_pcie_info_table = some t) (hwf : t.wf) (hfuel : t.num_entries ≤ fuel)
    (hb : bdf_bus H bdf < 256) (hd : bdf_dev H bdf < 32) (hf : bdf_func H bdf < 8)
    (hk : k < t.num_entries) (hin : t.contains_bus k (bdf_bus H bdf))
    (hfirst : ∀ j, j < k → ¬ t.contains_bus j (bdf_bus H bdf))
    (hcount : t1.num_entries = t.num_entries)
    (hagree : ∀ j, j ≤ k → t1.block j = t.block j) :
    ((t.block k).ecam_base ≠ 0 →
      (val_pcie_read_cfg P H fuel bdf offset s).map
          (fun r => mmio_calls (calls_during s r.2)) =
        some [Event.pal_mmio_read (cfg_target (t.block k).ecam_base
          (cfg_addr (bdf_bus H bdf) (bdf_dev H bdf) (bdf_func H bdf)) offset)] ∧
      (val_pcie_write_cfg P H fuel bdf offset data s).map
          (fun s1 => mmio_calls (calls_during s s1)) =
        some [Event.pal_mmio_write (cfg_target (t.block k).ecam_base
          (cfg_addr (bdf_bus H bdf) (bdf_dev H bdf) (bdf_func H bdf)) offset) data]) ∧
    (val_pcie_read_cfg P H fuel bdf offset { s with g_pcie_info_table := some t1 }).map
        (fun r => (r.1, calls_during { s with g_pcie_info_table := some t1 } r.2, r.2.pal)) =
      (val_pcie_read_cfg P H fuel bdf offset s).map
        (fun r => (r.1, calls_during s r.2, r.2.pal)) ∧
    (val_pcie_write_cfg P H fuel bdf offset data { s with g_pcie_info_table := some t1 }).map
        (fun s1 => (calls_during { s with g_pcie_info_table := some t1 } s1, s1.pal)) =
      (val_pcie_write_cfg P H fuel bdf offset data s).map
        (fun s1 => (calls_during s s1, s1.pal)) ∧
    (val_pcie_read_cfg P H fuel bdf offset s).isSome = true ∧
    (val_pcie_write_cfg P H fuel bdf offset data s).isSome = true := by
  have hin1 : t1.contains_bus k (bdf_bus H bdf) := by
    unfold PCIE_INFO_TABLE.contains_bus at hin ⊢
    rw [hagree k (le_refl k)]
    exact hin
  have hfirst1 : ∀ j, j < k → ¬ t1.contains_bus j (bdf_bus H bdf) := by
    intro j hj h
    apply hfirst j hj
    unfold PCIE_INFO_TABLE.contains_bus at h ⊢
    rw [← hagree j (by omega)]
    exact h
  have hr := read_cfg_first P H fuel bdf offset s t k ht hwf.1 hfuel hb hd hf hk hin hfirst
  have hw := write_cfg_first P H fuel bdf offset data s t k ht hwf.1 hfuel hb hd hf hk hin
    hfirst
  have hr1 := read_cfg_first P H fuel bdf offset { s with g_pcie_info_table := some t1 } t1 k
    rfl (by rw [hcount]; exact hwf.1) (by rw [hcount]; exact hfuel) hb hd hf
    (by rw [hcount]; exact hk) hin1 hfirst1
  have hw1 := write_cfg_first P H fuel bdf offset data { s with g_pcie_info_table := some t1 }
    t1 k rfl (by rw [hcount]; exact hwf.1) (by rw [hcount]; exact hfuel) hb hd hf
    (by rw [hcount]; exact hk) hin1 hfirst1
  rw [hagree k (le_refl k)] at hr1 hw1
  by_cases hz : (t.block k).ecam_base = 0
  · rw [if_pos hz] at hr hw hr1 hw1
    rw [hr, hw, hr1, hw1]
    refine ⟨fun h => absurd hz h, ?_, ?_, rfl, rfl⟩
    · rw [Option.map_some', Option.map_some', calls_during_val_print, calls_during_val_print]
      rfl
    · rw [Option.map_some', Option.map_some', calls_during_val_print, calls_during_val_print]
      rfl
  · rw [if_neg hz] at hr hw hr1 hw1
    rw [hr, hw, hr1, hw1]
    refine ⟨fun _ => ⟨?_, ?_⟩, ?_, ?_, rfl, rfl⟩
    · rw [Option.map_some', calls_during_print_read]
      rfl
    · rw [Option.map_some', calls_during_write]
      rfl
    · rw [Option.map_some', Option.map_some', calls_during_print_read,
        calls_during_print_read]
      rfl
    · rw [Option.map_some', Option.map_some', calls_during_write, calls_during_write]
      rfl

/-- C12, witness: two entries cover bus 1; the base of entry 1 is replaced and
the read still goes through the base of entry 0. -/
theorem val_pcie_cfg_first_match_witness :
    (sample_state (some (overlap_table 0x80000000)) empty_skip).g_pcie_info_table =
      some (overlap_table 0x80000000) ∧
    (overlap_table 0x80000000).wf ∧ (overlap_table 0x80000000).num_entries ≤ 2 ∧
    bdf_bus sample_includes 0x010203 < 256 ∧ bdf_dev sample_includes 0x010203 < 32 ∧
    bdf_func sample_includes 0x010203 < 8 ∧ 0 < (overlap_table 0x80000000).num_entries ∧
    (overlap_table 0x80000000).contains_bus 0 (bdf_bus sample_includes 0x010203) ∧
    (overlap_table 0x80000000).contains_bus 1 (bdf_bus sample_includes 0x010203) ∧
    (overlap_table 0xC0000000).num_entries = (overlap_table 0x80000000).num_entries ∧
    (∀ j, j ≤ 0 → (overlap_table 0xC0000000).block j = (overlap_table 0x80000000).block j) ∧
    (val_pcie_read_cfg (stub_pal 0 0 0 0) sample_includes 2 0x010203 4
        { sample_state (some (overlap_table 0x80000000)) empty_skip with
          g_pcie_info_table := some (overlap_table 0xC0000000) }).map
        (fun r => (r.1, calls_during
          { sample_state (some (overlap_table 0x80000000)) empty_skip with
            g_pcie_info_table := some (overlap_table 0xC0000000) } r.2, r.2.pal)) =
      (val_pcie_read_cfg (stub_pal 0 0 0 0) sample_includes 2 0x010203 4
        (sample_state (some (overlap_table 0x80000000)) empty_skip)).map
        (fun r => (r.1,
          calls_during (sample_state (some (overlap_table 0x80000000)) empty_skip) r.2,
          r.2.pal)) :=
  ⟨rfl, by decide, by decide, by decide, by decide, by decide, by decide, by decide, by decide,
    rfl, fun j hj => by rw [Nat.le_zero.1 hj]; rfl,
    (val_pcie_cfg_first_match (stub_pal 0 0 0 0) sample_includes 2 0x010203 4 7
      (sample_state (some (overlap_table 0x80000000)) empty_skip)
      (overlap_table 0x80000000) (overlap_table 0xC0000000) 0 rfl (by decide) (by decide)
      (by decide) (by decide) (by decide) (by decide) (by decide)
      (fun j hj => absurd hj (Nat.not_lt_zero j)) rfl
      (fun j hj => by rw [Nat.le_zero.1 hj]; rfl)).2.1⟩

/-- When the first entry that contains the bus, if there is one, has a non-zero
base, the scan leaves the loop with one `ecam_base`, the same from every state
that holds the table, and does not change the state. -/
theorem cfg_scan_resolves (P : Pal σ) (bus fuel : Nat) (t : PCIE_INFO_TABLE)
    (hn : t.num_entries < 2 ^ 32) (hfuel : t.num_entries ≤ fuel)
    (hres : ∀ k, k < t.num_entries → t.contains_bus k bus →
      (∀ j, j < k → ¬ t.contains_bus j bus) → (t.block k).ecam_base ≠ 0) :
    ∃ e, ∀ (s : State σ), s.g_pcie_info_table = some t →
      cfg_scan P bus fuel 0 s = some (some e, s) := by
  by_cases hex : ∃ k, k < t.num_entries ∧ t.contains_bus k bus
  · have hk := Nat.find_spec hex
    have hmin : ∀ j, j < Nat.find hex → ¬ t.contains_bus j bus := by
      intro j hj hc
      exact Nat.find_min hex hj ⟨by omega, hc⟩
    refine ⟨(t.block (Nat.find hex)).ecam_base, fun s ht => ?_⟩
    have hscan := cfg_scan_first P bus s t ht hn (Nat.find hex) hk.1 hk.2 fuel 0
      (Nat.zero_le _) (by omega) (fun j _ hj => hmin j hj)
    rw [if_neg (hres (Nat.find hex) hk.1 hk.2 hmin)] at hscan
    exact hscan
  · refine ⟨0, fun s ht => ?_⟩
    exact cfg_scan_none P bus s t ht hn fuel 0 (by omega)
      (fun j _ hj hc => hex ⟨j, hj, hc⟩)

/-- C13: with the stub memory as the MMIO primitive (`pal_mmio_write` stores
the 32-bit value at the address, `pal_mmio_read` returns the value stored
there), on a created, well-typed table, for a valid bdf, any offset and a 32-bit
value `V`, if the access is not aborted on a zero base then
`val_pcie_write_cfg(bdf, offset, V)` followed by `val_pcie_read_cfg(bdf, offset)`
returns `V`. -/
theorem val_pcie_cfg_round_trip (mcfg r1 r2 r3 : Nat) (H : Includes)
    (fuel bdf offset V : Nat) (s : State (Nat → Nat)) (t : PCIE_INFO_TABLE)
    (ht : s.g_pcie_info_table = some t) (hwf : t.wf) (hfuel : t.num_entries ≤ fuel)
    (hb : bdf_bus H bdf < 256) (hd : bdf_dev H bdf < 32) (hf : bdf_func H bdf < 8)
    (hV : V < 2 ^ 32)
    (hres : ∀ k, k < t.num_entries → t.contains_bus k (bdf_bus H bdf) →
      (∀ j, j < k → ¬ t.contains_bus j (bdf_bus H bdf)) → (t.block k).ecam_base ≠ 0) :
    (val_pcie_write_cfg (stub_pal mcfg r1 r2 r3) H fuel bdf offset V s).bind
        (fun s1 => (val_pcie_read_cfg (stub_pal mcfg r1 r2 r3) H fuel bdf offset s1).map
          Prod.fst) = some V := by
  obtain ⟨e, hscan⟩ := cfg_scan_resolves (stub_pal mcfg r1 r2 r3) (bdf_bus H bdf) fuel t
    hwf.1 hfuel hres
  have hw := write_cfg_past_guards (stub_pal mcfg r1 r2 r3) H fuel bdf offset V s t ht
    hb hd hf
  rw [hscan s ht] at hw
  simp only [] at hw
  rw [hw, Option.some_bind]
  have hr := read_cfg_past_guards (stub_pal mcfg r1 r2 r3) H fuel bdf offset
    (pal_mmio_write (stub_pal mcfg r1 r2 r3)
      (cfg_target e (cfg_addr (bdf_bus H bdf) (bdf_dev H bdf) (bdf_func H bdf)) offset) V s)
    t ht hb hd hf
  have ht1 : (pal_mmio_write (stub_pal mcfg r1 r2 r3)
      (cfg_target e (cfg_addr (bdf_bus H bdf) (bdf_dev H bdf) (bdf_func H bdf)) offset) V
      s).g_pcie_info_table = some t := ht
  rw [hscan _ ht1] at hr
  simp only [] at hr
  rw [hr, Option.map_some']
  simp only [pal_mmio_read, pal_mmio_write, val_print, stub_pal, if_true, Nat.mod_mod]
  rw [Nat.mod_eq_of_lt hV]

/-- C13, witness: one region at base `0x40000000`, bdf `0x010203`, offset 4 and
value `0xDEADBEEF`. -/
theorem val_pcie_cfg_round_trip_witness :
    (sample_state (some low_table) empty_skip).g_pcie_info_table = some low_table ∧
    low_table.wf ∧ low_table.num_entries ≤ 1 ∧
    bdf_bus sample_includes 0x010203 < 256 ∧ bdf_dev sample_includes 0x010203 < 32 ∧
    bdf_func sample_includes 0x010203 < 8 ∧ 0xDEADBEEF < 2 ^ 32 ∧
    (∀ k, k < low_table.num_entries →
      low_table.contains_bus k (bdf_bus sample_includes 0x010203) →
      (∀ j, j < k → ¬ low_table.contains_bus j (bdf_bus sample_includes 0x010203)) →
      (low_table.block k).ecam_base ≠ 0) ∧
    (val_pcie_write_cfg (stub_pal 0 0 0 0) sample_includes 1 0x010203 4 0xDEADBEEF
        (sample_state (some low_table) empty_skip)).bind
        (fun s1 => (val_pcie_read_cfg (stub_pal 0 0 0 0) sample_includes 1 0x010203 4 s1).map
          Prod.fst) = some 0xDEADBEEF :=
  ⟨rfl, by decide, by decide, by decide, by decide, by decide, by decide,
    fun _ _ _ _ => (by decide : (0x40000000 : Nat) ≠ 0),
    val_pcie_cfg_round_trip 0 0 0 0 sample_includes 1 0x010203 4 0xDEADBEEF
      (sample_state (some low_table) empty_skip) low_table rfl (by decide) (by decide)
      (by decide) (by decide) (by decide) (by decide) (fun _ _ _ _ => (by decide : (0x40000000 : Nat) ≠ 0))⟩

/-! ## After `val_pcie_free_info_table` -/

/-- C15, as amended: after `val_pcie_free_info_table` on a created table the
pointer `g_pcie_info_table` is still non-`NULL` and the one call made was
`pal_mem_free`. Accesses are answered from the contents `t1` of the released
buffer, not by the not-created guard: for an index below `t1.num_entries`,
`val_pcie_get_info` returns `t1.num_entries` for `PCIE_INFO_NUM_ECAM` and the
base of entry `index` for `PCIE_INFO_ECAM`, and for a valid bdf whose first
matching entry `k` of `t1` has a non-zero base `val_pcie_read_cfg` calls
`pal_mmio_read` once, at the address formed with that base. -/
theorem val_pcie_free_info_table_keeps_pointer (P : Pal σ) (M : PalMem σ) (H : Includes)
    (s : State σ) (t : PCIE_INFO_TABLE) (ht : s.g_pcie_info_table = some t) :
    (val_pcie_free_info_table M s).g_pcie_info_table = some (M.released t s.pal) ∧
    calls_during s (val_pcie_free_info_table M s) = [Event.pal_mem_free] ∧
    (∀ index, index < (M.released t s.pal).num_entries →
      val_pcie_get_info P .PCIE_INFO_NUM_ECAM index (val_pcie_free_info_table M s) =
        ((M.released t s.pal).num_entries, val_pcie_free_info_table M s) ∧
      val_pcie_get_info P .PCIE_INFO_ECAM index (val_pcie_free_info_table M s) =
        (((M.released t s.pal).block index).ecam_base, val_pcie_free_info_table M s)) ∧
    (∀ (fuel bdf offset k : Nat), (M.released t s.pal).num_entries < 2 ^ 32 →
      (M.released t s.pal).num_entries ≤ fuel →
      bdf_bus H bdf < 256 → bdf_dev H bdf < 32 → bdf_func H bdf < 8 →
      k < (M.released t s.pal).num_entries →
      (M.released t s.pal).contains_bus k (bdf_bus H bdf) →
      (∀ j, j < k → ¬ (M.released t s.pal).contains_bus j (bdf_bus H bdf)) →
      ((M.released t s.pal).block k).ecam_base ≠ 0 →
      (val_pcie_read_cfg P H fuel bdf offset (val_pcie_free_info_table M s)).map
          (fun r => mmio_calls (calls_during (val_pcie_free_info_table M s) r.2)) =
        some [Event.pal_mmio_read (cfg_target ((M.released t s.pal).block k).ecam_base
          (cfg_addr (bdf_bus H bdf) (bdf_dev H bdf) (bdf_func H bdf)) offset)]) := by
  have hptr : (val_pcie_free_info_table M s).g_pcie_info_table =
      some (M.released t s.pal) := by
    unfold val_pcie_free_info_table
    simp [ht]
  refine ⟨hptr, calls_during_append s _ _ rfl, ?_, ?_⟩
  · intro index hi
    have hlt : ¬ (index ≥ (M.released t s.pal).num_entries) := by omega
    refine ⟨?_, get_info_ecam P _ _ hptr index hi⟩
    unfold val_pcie_get_info
    rw [hptr]
    simp [hlt]
  · intro fuel bdf offset k hn hfuel hb hd hf hk hin hfirst hbase
    rw [read_cfg_first P H fuel bdf offset _ _ k hptr hn hfuel hb hd hf hk hin hfirst,
      if_neg hbase, Option.map_some', calls_during_print_read]
    rfl

/-- C15, witness: the amended statement for a one-entry table released by an
allocator that leaves the memory as it is. -/
theorem val_pcie_free_info_table_keeps_pointer_witness :
    (sample_state (some low_table) empty_skip).g_pcie_info_table = some low_table ∧
    (val_pcie_free_info_table keep_mem
      (sample_state (some low_table) empty_skip)).g_pcie_info_table =
      some (keep_mem.released low_table (sample_state (some low_table) empty_skip).pal) ∧
    calls_during (sample_state (some low_table) empty_skip)
      (val_pcie_free_info_table keep_mem (sample_state (some low_table) empty_skip)) =
      [Event.pal_mem_free] :=
  ⟨rfl,
    (val_pcie_free_info_table_keeps_pointer (stub_pal 0 0 0 0) keep_mem sample_includes
      (sample_state (some low_table) empty_skip) low_table rfl).1,
    (val_pcie_free_info_table_keeps_pointer (stub_pal 0 0 0 0) keep_mem sample_includes
      (sample_state (some low_table) empty_skip) low_table rfl).2.1⟩

/-- C15, counterexample to the claim as stated: a one-entry table at base
`0x40000000` is created and then freed by an allocator that leaves the memory
as it is. Afterwards `val_pcie_get_info(PCIE_INFO_NUM_ECAM, 0)` returns 1 and
`val_pcie_get_info(PCIE_INFO_ECAM, 0)` returns `0x40000000`, not 0, and
`val_pcie_read_cfg(0x010203, 4)` calls `pal_mmio_read` at `0x40110007` and
returns the word read, `0xFFFFFFFF`. -/
theorem val_pcie_access_after_free :
    (val_pcie_get_info (stub_pal 0 0 0 0) .PCIE_INFO_NUM_ECAM 0
      (val_pcie_free_info_table keep_mem (sample_state (some low_table) empty_skip))).1 = 1 ∧
    (val_pcie_get_info (stub_pal 0 0 0 0) .PCIE_INFO_ECAM 0
      (val_pcie_free_info_table keep_mem (sample_state (some low_table) empty_skip))).1 =
      0x40000000 ∧
    (val_pcie_read_cfg (stub_pal 0 0 0 0) sample_includes 1 0x010203 4
        (val_pcie_free_info_table keep_mem (sample_state (some low_table) empty_skip))).map
        (fun r => (r.1, mmio_calls (calls_during
          (val_pcie_free_info_table keep_mem (sample_state (some low_table) empty_skip))
          r.2))) =
      some (0xFFFFFFFF, [Event.pal_mmio_read 0x40110007]) ∧
    (val_pcie_get_info (stub_pal 0 0 0 0) .PCIE_INFO_NUM_ECAM 0
      (val_pcie_free_info_table keep_mem (sample_state (some low_table) empty_skip))).1 ≠ 0 ∧
    (val_pcie_read_cfg (stub_pal 0 0 0 0) sample_includes 1 0x010203 4
        (val_pcie_free_info_table keep_mem (sample_state (some low_table) empty_skip))).map
        (fun r => (r.1, mmio_calls (calls_during
          (val_pcie_free_info_table keep_mem (sample_state (some low_table) empty_skip))
          r.2))) ≠ some (0, []) := by
  refine ⟨by decide, by decide, by decide, by decide, by decide⟩

/-! ## Termination and index bounds of the scan -/

/-- From a loop counter `i ≤ n` and with fuel for the `n - i` entries left, the
scan ends, every call of `val_pcie_get_info` in the loop body has an index below
`n`, and every call in the loop condition is `(PCIE_INFO_NUM_ECAM, 0)`. -/
theorem cfg_scan_bounded (P : Pal σ) (bus : Nat) (s : State σ) (t : PCIE_INFO_TABLE)
    (ht : s.g_pcie_info_table = some t) (hn : t.num_entries < 2 ^ 32) :
    ∀ (fuel i : Nat), t.num_entries - i ≤ fuel →
      (cfg_scan P bus fuel i s).isSome = true ∧
      ∀ c, c ∈ cfg_scan_info_calls P bus fuel i s →
        (c.in_body = true → c.index < t.num_entries) ∧
        (c.in_body = false → c.type = .PCIE_INFO_NUM_ECAM ∧ c.index = 0) := by
  intro fuel
  induction fuel with
  | zero =>
    intro i hf
    have hi : ¬ i < t.num_entries := by omega
    constructor
    · rw [cfg_scan]
      simp [get_info_num_ecam_zero P s t ht, hi]
    · intro c hc
      rw [cfg_scan_info_calls, List.mem_singleton] at hc
      subst hc
      exact ⟨fun h => absurd h (by decide), fun _ => ⟨rfl, rfl⟩⟩
  | succ fuel ih =>
    intro i hf
    by_cases hi : i < t.num_entries
    · have hmod : (i + 1) % 2 ^ 32 = i + 1 := Nat.mod_eq_of_lt (by omega)
      obtain ⟨ihs, ihc⟩ := ih (i + 1) (by omega)
      constructor
      · by_cases hin : t.contains_bus i bus
        · rw [cfg_scan_hit P bus fuel i s t ht hi hin]
          split <;> rfl
        · rw [cfg_scan_skip P bus fuel i s t ht hn hi hin]
          exact ihs
      · intro c hc
        rw [cfg_scan_info_calls] at hc
        simp only [get_info_num_ecam_zero P s t ht, get_info_start_bus P s t ht i hi,
          get_info_end_bus P s t ht i hi, hi, if_true, hmod] at hc
        rw [List.mem_cons] at hc
        rcases hc with hc | hc
        · subst hc
          exact ⟨fun h => absurd h (by decide), fun _ => ⟨rfl, rfl⟩⟩
        · rw [List.mem_cons] at hc
          rcases hc with hc | hc
          · subst hc
            exact ⟨fun _ => hi, fun h => Bool.noConfusion h⟩
          · split at hc
            · rw [List.mem_cons] at hc
              rcases hc with hc | hc
              · subst hc
                exact ⟨fun _ => hi, fun h => Bool.noConfusion h⟩
              · split at hc
                · rw [List.mem_singleton] at hc
                  subst hc
                  exact ⟨fun _ => hi, fun h => Bool.noConfusion h⟩
                · exact ihc c hc
            · exact ihc c hc
    · constructor
      · rw [cfg_scan]
        simp [get_info_num_ecam_zero P s t ht, hi]
      · intro c hc
        rw [cfg_scan_info_calls] at hc
        simp only [get_info_num_ecam_zero P s t ht, hi, if_false, List.mem_singleton] at hc
        subst hc
        exact ⟨fun h => absurd h (by decide), fun _ => ⟨rfl, rfl⟩⟩

/-- C20, as amended: on a created, well-typed table with `num_entries = n`, the
scan of the accessors ends within `n` loop bodies; the loop bound
`val_pcie_get_info(PCIE_INFO_NUM_ECAM, 0)` is `n`, also when `n = 0`; every call
of `val_pcie_get_info` in the loop body has an index below `n`, so it does not
reach the out-of-range branch; and the call in the loop condition, which has
index 0, is below `n` exactly when the table is not empty. -/
theorem cfg_scan_terminates_in_range (P : Pal σ) (bus fuel : Nat) (s : State σ)
    (t : PCIE_INFO_TABLE) (ht : s.g_pcie_info_table = some t) (hwf : t.wf)
    (hfuel : t.num_entries ≤ fuel) :
    (cfg_scan P bus t.num_entries 0 s).isSome = true ∧
    (cfg_scan P bus fuel 0 s).isSome = true ∧
    val_pcie_get_info P .PCIE_INFO_NUM_ECAM 0 s = (t.num_entries, s) ∧
    (∀ c, c ∈ cfg_scan_info_calls P bus fuel 0 s → c.in_body = true →
      c.index < t.num_entries) ∧
    (∀ c, c ∈ cfg_scan_info_calls P bus fuel 0 s → c.in_body = false →
      c.type = .PCIE_INFO_NUM_ECAM ∧ c.index = 0 ∧
      (c.index < t.num_entries ↔ t.num_entries ≠ 0)) := by
  have hb := cfg_scan_bounded P bus s t ht hwf.1 fuel 0 (by omega)
  refine ⟨(cfg_scan_bounded P bus s t ht hwf.1 t.num_entries 0 (by omega)).1, hb.1,
    get_info_num_ecam_zero P s t ht, fun c hc => (hb.2 c hc).1, fun c hc hcond => ?_⟩
  obtain ⟨hty, hidx⟩ := (hb.2 c hc).2 hcond
  refine ⟨hty, hidx, ?_⟩
  rw [hidx]
  omega

/-- C20, witness: the amended statement for a two-entry table and bus 1. -/
theorem cfg_scan_terminates_in_range_witness :
    (sample_state (some shadowed_table) empty_skip).g_pcie_info_table = some shadowed_table ∧
    shadowed_table.wf ∧ shadowed_table.num_entries ≤ 2 ∧
    (cfg_scan (stub_pal 0 0 0 0) 1 2 0 (sample_state (some shadowed_table) empty_skip)).isSome =
      true ∧
    val_pcie_get_info (stub_pal 0 0 0 0) .PCIE_INFO_NUM_ECAM 0
        (sample_state (some shadowed_table) empty_skip) =
      (shadowed_table.num_entries, sample_state (some shadowed_table) empty_skip) :=
  ⟨rfl, by decide, by decide,
    (cfg_scan_terminates_in_range (stub_pal 0 0 0 0) 1 2
      (sample_state (some shadowed_table) empty_skip) shadowed_table rfl (by decide)
      (by decide)).2.1,
    (cfg_scan_terminates_in_range (stub_pal 0 0 0 0) 1 2
      (sample_state (some shadowed_table) empty_skip) shadowed_table rfl (by decide)
      (by decide)).2.2.1⟩

/-- C20, counterexample to the claim as stated: on a created table with no
entry the scan makes one call of `val_pcie_get_info`, the loop bound
`(PCIE_INFO_NUM_ECAM, 0)`, and its index 0 is not below `num_entries = 0`: the
call returns 0 through the out-of-range branch, without an error message. -/
theorem cfg_scan_empty_table_out_of_range :
    (sample_state (some empty_table) empty_skip).g_pcie_info_table = some empty_table ∧
    empty_table.wf ∧ empty_table.num_entries = 0 ∧
    cfg_scan_info_calls (stub_pal 0 0 0 0) 1 1 0 (sample_state (some empty_table) empty_skip) =
      [⟨false, .PCIE_INFO_NUM_ECAM, 0⟩] ∧
    (0 : Nat) ≥ empty_table.num_entries ∧
    ¬ (∀ c, c ∈ cfg_scan_info_calls (stub_pal 0 0 0 0) 1 1 0
        (sample_state (some empty_table) empty_skip) → c.index < empty_table.num_entries) ∧
    (val_pcie_get_info (stub_pal 0 0 0 0) .PCIE_INFO_NUM_ECAM 0
      (sample_state (some empty_table) empty_skip)).1 = 0 ∧
    calls_during (sample_state (some empty_table) empty_skip)
      (val_pcie_get_info (stub_pal 0 0 0 0) .PCIE_INFO_NUM_ECAM 0
        (sample_state (some empty_table) empty_skip)).2 = [] := by
  refine ⟨rfl, by decide, rfl, by decide, by decide, ?_, by decide, by decide⟩
  intro h
  exact absurd (h ⟨false, .PCIE_INFO_NUM_ECAM, 0⟩ (by decide)) (by decide)

end AvsPcie
